import Mathlib

/-!
Verification development for the `tax_perfection` repository: two database
seeding scripts, `src/seeder.py` and `src/seeder_rc.py`, that populate an
LADM-based property-tax schema with random data.

The shallow embedding below models each script's `seed_data` procedure as a
deterministic function of

* the three requested counts (parties, parcels, bills), and
* an oracle `Env` supplying every random / faker draw the script makes
  (`random.choice` indices, `random.uniform` unit draws, faker strings and
  dates, the per-bill paid coin flips, and an optional injected database
  failure at a given statement index, standing for `cur.execute` raising).

Executed SQL statements are recorded as structured `Stmt` values: target
table, insert/update kind, column list of the SQL template, text fragments
interpolated directly into the query string, and the bound-parameter tuple.
The database's `RETURNING` clauses are modelled by per-table counters in
`Core`: each insert captures the current counter value, exactly as the
scripts capture `cur.fetchone()`.

A phase is a function `Core → Except (Err × List Stmt) (Core × List Stmt)`:
on success it returns the new core together with the statements it executed;
on failure it returns the raised exception together with the statements
executed before the failure.  The top-level `seedData` wrapper mirrors the
scripts' `try / commit / except / rollback / raise` structure.
-/

namespace TaxSeed

/-- Kind of an executed SQL statement. -/
inductive StmtKind where
  | ins
  | upd
deriving DecidableEq, Repr

/-- Target table of an executed SQL statement (schema `ladm`). -/
inductive Tbl where
  | party      -- LA_Party
  | spatial    -- LA_SpatialUnit
  | baunit     -- LA_BAUnit
  | tra        -- TaxRateArea
  | rate       -- TaxRate
  | assess     -- TaxAssessment
  | supp       -- SupplementalAssessment
  | rrr        -- LA_RRR
  | bill       -- TaxBill
  | pay        -- TaxPayment
deriving DecidableEq, Repr

/-- A bound-parameter value: string, id, date (day number), numeric, boolean
or SQL NULL. -/
inductive Value where
  | s (v : String)
  | nat (v : Nat)
  | int (v : Int)
  | q (v : Rat)
  | b (v : Bool)
  | null
deriving DecidableEq, Repr

/-- An executed SQL statement: table, kind, the column list of the SQL
template, the text fragments interpolated directly into the query string
(empty for fully parameterized statements), and the bound parameters. -/
structure Stmt where
  table : Tbl
  kind : StmtKind
  columns : List String
  interp : List String
  params : List Value
deriving DecidableEq, Repr

/-- Exceptions the embedded scripts can raise: `ixErr ph` is Python's
`IndexError` from `random.choice` on an empty sequence raised in phase `ph`;
`smpErr ph` is `ValueError` from `random.sample` with an oversized sample
size; `dbErr n` is an injected database error raised by the execution of
statement number `n` (modelling `cur.execute` failing). -/
inductive Err where
  | ixErr (ph : Nat)
  | smpErr (ph : Nat)
  | dbErr (n : Nat)
deriving DecidableEq, Repr

/-- One inserted TaxBill row as the scripts create and later update it. -/
structure BillRow where
  bill_date : Int
  bill_uid : Nat
  ba_unit_id : Nat
  party_id : Nat
  due_date : Int
  amount_due : Rat
  is_paid : Bool
  bill_type : String
  supplemental_id : Option Nat
deriving DecidableEq, Repr

/-- One inserted TaxPayment row. -/
structure PayRow where
  payment_date : Int
  bill_date : Int
  bill_uid : Nat
  amount_paid : Rat
deriving DecidableEq, Repr

/-- Oracle for every random or faker draw made during a run.  Each field is
indexed by the loop position at which the corresponding draw happens, so a
run is a deterministic function of the oracle.  `failAt` optionally injects
a database error at a given executed-statement index. -/
structure Env where
  failAt : Option Nat
  partyName : Nat → String
  partyTypeIdx : Nat → Nat
  identDigits : Nat → String
  fakeAddr : Nat → String
  geomLngU : Nat → Rat
  geomLatU : Nat → Rat
  cadDigits : Nat → String
  areaU : Nat → Rat
  unitLetters : Nat → String
  apnDigits : Nat → String
  householdU : Nat → Nat
  streetNumU : Nat → Nat
  streetWord : Nat → String
  streetSfxIdx : Nat → Nat
  zipIdx : Nat → Nat
  bizIdx : Nat → Nat
  traIdx : Nat → Nat
  assessYearIdx : Nat → Nat
  baseYearIdx : Nat → Nat
  baseValU : Nat → Rat
  factorU : Nat → Rat
  rollIdx : Nat → Nat
  rateIdx : Nat → Nat
  suppSel : Nat → Nat
  suppReasonIdx : Nat → Nat
  suppOldU : Nat → Rat
  suppDeltaU : Nat → Rat
  suppRateIdx : Nat → Nat
  suppDate : Nat → Int
  rrrPartyIdx : Nat → Nat
  rrrDate : Nat → Int
  billBuidIdx : Nat → Nat
  billPartyIdx : Nat → Nat
  billDate : Nat → Int
  billAmtU : Nat → Rat
  billTypeIdx : Nat → Nat
  paySel : Nat → Nat
  payCntU : Nat → Nat
  payDate : Nat → Nat → Int
  payAmtU : Nat → Nat → Rat
  paidU : Nat → Rat

/-- In-memory state threaded through a run: the executed-statement counter,
the per-table id counters standing for the database's serial columns (whose
current value is what each `RETURNING` clause hands back), the captured id
lists the scripts keep (`party_ids`, `spatial_ids`, `baunit_ids`,
`tra_ids_map` values, `tax_rate_ids`, `inserted_bills`), and the rows of the
tables later claims need to inspect. -/
structure Core where
  stmtCount : Nat
  nextPartyId : Nat
  nextSpatialId : Nat
  nextBaUnitId : Nat
  nextTraId : Nat
  nextRateId : Nat
  nextBillUid : Nat
  partyIds : List Nat
  spatialIds : List Nat
  baunitIds : List Nat
  traIds : List Nat
  taxRateIds : List Nat
  insertedBills : List (Int × Nat)
  traAssign : List (Nat × Nat)
  assessRows : List (Nat × Nat)
  suppRows : List (Nat × Nat)
  rrrRows : List (Nat × Nat)
  bills : List BillRow
  payments : List PayRow
deriving DecidableEq, Repr

/-- Initial state: no statements executed, serial counters at 1, all
captured lists and tables empty. -/
def initCore : Core :=
  ⟨0, 1, 1, 1, 1, 1, 1, [], [], [], [], [], [], [], [], [], [], [], []⟩

/-- `random.choice(xs)`: pick the element at the drawn index (reduced modulo
the length); `none` models the `IndexError` raised on an empty sequence. -/
def pyChoice (xs : List α) (i : Nat) : Option α :=
  xs[i % xs.length]?

/-- `random.uniform(lo, hi)` applied to a unit draw `u`. -/
def pyUniform (lo hi u : Rat) : Rat :=
  lo + (hi - lo) * u

/-- `random.randint(a, b)` applied to a draw `u`. -/
def pyRandint (a b u : Nat) : Nat :=
  a + u % (b - a + 1)

/-- `random.sample(xs, k)`: sampling without replacement, consuming the
selection oracle `sel` from offset `off`; `none` models the `ValueError`
raised when `k` exceeds the population size. -/
def pySample (sel : Nat → Nat) : Nat → List α → Nat → Option (List α)
  | _, _, 0 => some []
  | off, xs, k + 1 =>
    match xs[sel off % xs.length]? with
    | none => none
    | some x =>
      (pySample sel (off + 1) (xs.eraseIdx (sel off % xs.length)) k).map
        (fun r => x :: r)

/-- A phase of a run: statements executed are accumulated on both the
success and the failure path. -/
abbrev Phase := Core → Except (Err × List Stmt) (Core × List Stmt)

/-- The phase that does nothing. -/
def pskip : Phase := fun c => .ok (c, [])

/-- Sequential composition of phases. -/
def pseq (p q : Phase) : Phase := fun c =>
  match p c with
  | .error et => .error et
  | .ok (c1, t1) =>
    match q c1 with
    | .error (e, t2) => .error (e, t1 ++ t2)
    | .ok (c2, t2) => .ok (c2, t1 ++ t2)

/-- Raise an exception. -/
def praise (e : Err) : Phase := fun _ => .error (e, [])

/-- Pure state modification, executing no statement. -/
def pmod (f : Core → Core) : Phase := fun c => .ok (f c, [])

/-- Let a phase depend on the current state. -/
def pwith (f : Core → Phase) : Phase := fun c => f c c

/-- Advance the executed-statement counter. -/
def bump (c : Core) : Core := { c with stmtCount := c.stmtCount + 1 }

/-- `cur.execute`: raises the injected database error when this statement's
index matches `failAt`, otherwise records the statement. -/
def emit (env : Env) (s : Stmt) : Phase := fun c =>
  if env.failAt = some c.stmtCount then .error (.dbErr c.stmtCount, [])
  else .ok (bump c, [s])

/-- Run a phase body for indices `start, start+1, ..., start+n-1`. -/
def prange (body : Nat → Phase) (start : Nat) : Nat → Phase
  | 0 => pskip
  | n + 1 => pseq (body start) (prange body (start + 1) n)

/-- Run an indexed phase body over a list. -/
def plist (body : Nat → α → Phase) (start : Nat) : List α → Phase
  | [] => pskip
  | x :: xs => pseq (body start x) (plist body (start + 1) xs)

/-! ### Static vocabulary shared by both scripts -/

def partyTypes : List String := ["Individual", "Company", "GovAgency"]

def rollTypes : List String := ["Secured", "Unsecured"]

def billTypes : List String := ["Annual", "Supplemental"]

def reasonCodes : List String := ["ChangeOfOwnership", "NewConstruction"]

def assessYears : List Nat := [2023, 2024, 2025]

def baseYears : List Nat := [2018, 2019, 2020]

def traCodes : List (String × String) :=
  [("TRA_001", "Riverside City District"),
   ("TRA_002", "Murrieta District"),
   ("TRA_003", "Coachella District")]

def taxRatesData : List (String × Rat) :=
  [("Base Prop 13 Rate", 1 / 100),
   ("Local Bond Measure", 15 / 10000),
   ("Special School Tax", 8 / 10000)]

/-! ### Geometry text, interpolated into the query string -/

/-- The WKT expression text that `random_point_in_bbox` /
`random_point_in_riverside` build and the scripts interpolate directly into
the spatial-unit INSERT. -/
def pointText (lng lat : Rat) : String :=
  "ST_SetSRID(ST_MakePoint(" ++ toString lng ++ ", " ++ toString lat
    ++ "), 4326)"

/-- Bounding box of `seeder.py`. -/
def minXS : Rat := -117
def maxXS : Rat := -115
def minYS : Rat := 33
def maxYS : Rat := 34

/-- Bounding box of `seeder_rc.py` (around Riverside city). -/
def minXRC : Rat := -235 / 2
def maxXRC : Rat := -469 / 4
def minYRC : Rat := 677 / 20
def maxYRC : Rat := 34

/-! ### Riverside-specific vocabulary (`seeder_rc.py`) -/

def streetSfxList : List String :=
  ["St", "Ave", "Blvd", "Rd", "Ln", "Way", "Dr", "Ct"]

def riversideZips : List String :=
  ["92501", "92503", "92504", "92505", "92506", "92507", "92508", "92509"]

def riversideAgencies : List String :=
  ["Riverside County Assessor\x27s Office", "Riverside City Hall",
   "Riverside Water Department", "Riverside Unified School District"]

def riversideBusinesses : List String :=
  ["Mission Inn Hotel & Spa", "La Sierra University",
   "Riverside Community Hospital", "Galleria at Tyler"]

/-- `generate_riverside_address` of `seeder_rc.py`. -/
def riversideAddress (env : Env) (i : Nat) : String :=
  toString (pyRandint 100 9999 (env.streetNumU i)) ++ " " ++ env.streetWord i
    ++ " " ++ streetSfxList.getD (env.streetSfxIdx i % streetSfxList.length) ""
    ++ "\nRiverside, CA "
    ++ riversideZips.getD (env.zipIdx i % riversideZips.length) ""

/-- `generate_riverside_party` of `seeder_rc.py`, applied to the chosen
party type. -/
def riversideParty (env : Env) (i : Nat) : String × String :=
  let t := partyTypes.getD (env.partyTypeIdx i % partyTypes.length) ""
  if t = "Individual" then (env.partyName i, "Individual")
  else if t = "Company" then
    (riversideBusinesses.getD (env.bizIdx i % riversideBusinesses.length) "",
     "Company")
  else
    (riversideAgencies.getD (env.bizIdx i % riversideAgencies.length) "",
     "GovAgency")

/-! ### Phase 1: parties -/

/-- The `LA_Party` INSERT of `seeder.py` for loop index `i`. -/
def partyStmtS (env : Env) (i : Nat) : Stmt :=
  ⟨.party, .ins, ["party_name", "party_type", "identifier"], [],
   [.s (env.partyName i),
    .s (partyTypes.getD (env.partyTypeIdx i % partyTypes.length) ""),
    .s (env.identDigits i)]⟩

/-- The `LA_Party` INSERT of `seeder_rc.py` for loop index `i`. -/
def partyStmtRC (env : Env) (i : Nat) : Stmt :=
  ⟨.party, .ins, ["party_name", "party_type", "identifier"], [],
   [.s (riversideParty env i).1, .s (riversideParty env i).2,
    .s (env.identDigits i)]⟩

/-- State effect of one party insert: capture the id handed back by
`RETURNING party_id`. -/
def partyEff (c : Core) : Core :=
  { c with partyIds := c.partyIds ++ [c.nextPartyId],
           nextPartyId := c.nextPartyId + 1 }

def insertPartyS (env : Env) (i : Nat) : Phase :=
  pseq (emit env (partyStmtS env i)) (pmod partyEff)

def insertPartyRC (env : Env) (i : Nat) : Phase :=
  pseq (emit env (partyStmtRC env i)) (pmod partyEff)

def phasePartiesS (env : Env) (n : Nat) : Phase :=
  prange (insertPartyS env) 0 n

def phasePartiesRC (env : Env) (n : Nat) : Phase :=
  prange (insertPartyRC env) 0 n

/-! ### Phase 2: spatial units -/

/-- The `LA_SpatialUnit` INSERT of `seeder.py`: the geometry expression is
interpolated into the query text; address, cadastral reference and area are
bound parameters. -/
def spatialStmtS (env : Env) (i : Nat) : Stmt :=
  ⟨.spatial, .ins, ["geometry", "address", "cadastral_ref", "area_sq_m"],
   [pointText (pyUniform minXS maxXS (env.geomLngU i))
      (pyUniform minYS maxYS (env.geomLatU i))],
   [.s ((env.fakeAddr i).replace "\n" ", "),
    .s ("CAD-" ++ env.cadDigits i),
    .q (pyUniform 200 20000 (env.areaU i))]⟩

/-- The `LA_SpatialUnit` INSERT of `seeder_rc.py`. -/
def spatialStmtRC (env : Env) (i : Nat) : Stmt :=
  ⟨.spatial, .ins, ["geometry", "address", "cadastral_ref", "area_sq_m"],
   [pointText (pyUniform minXRC maxXRC (env.geomLngU i))
      (pyUniform minYRC maxYRC (env.geomLatU i))],
   [.s (riversideAddress env i),
    .s ("CAD-" ++ env.cadDigits i),
    .q (pyUniform 200 20000 (env.areaU i))]⟩

def spatialEff (c : Core) : Core :=
  { c with spatialIds := c.spatialIds ++ [c.nextSpatialId],
           nextSpatialId := c.nextSpatialId + 1 }

def insertSpatialS (env : Env) (i : Nat) : Phase :=
  pseq (emit env (spatialStmtS env i)) (pmod spatialEff)

def insertSpatialRC (env : Env) (i : Nat) : Phase :=
  pseq (emit env (spatialStmtRC env i)) (pmod spatialEff)

def phaseSpatialS (env : Env) (m : Nat) : Phase :=
  prange (insertSpatialS env) 0 m

def phaseSpatialRC (env : Env) (m : Nat) : Phase :=
  prange (insertSpatialRC env) 0 m

/-! ### Phase 3: BAUnits -/

/-- The `LA_BAUnit` INSERT of `seeder.py`: fourth column is `tra_id`,
inserted as NULL. -/
def baunitStmtS (env : Env) (i sid : Nat) : Stmt :=
  ⟨.baunit, .ins,
   ["unit_name", "spatial_unit_id", "assessor_parcel_number", "tra_id"], [],
   [.s ("Parcel " ++ env.unitLetters i), .nat sid, .s (env.apnDigits i),
    .null]⟩

/-- The `LA_BAUnit` INSERT of `seeder_rc.py`: fourth column is
`description`, carrying the household-size text. -/
def baunitStmtRC (env : Env) (i sid : Nat) : Stmt :=
  ⟨.baunit, .ins,
   ["unit_name", "spatial_unit_id", "assessor_parcel_number", "description"],
   [],
   [.s ("Parcel " ++ env.unitLetters i), .nat sid, .s (env.apnDigits i),
    .s ("Household Size: " ++ toString (pyRandint 1 6 (env.householdU i)))]⟩

def baunitEff (c : Core) : Core :=
  { c with baunitIds := c.baunitIds ++ [c.nextBaUnitId],
           nextBaUnitId := c.nextBaUnitId + 1 }

def insertBAUnitS (env : Env) (i sid : Nat) : Phase :=
  pseq (emit env (baunitStmtS env i sid)) (pmod baunitEff)

def insertBAUnitRC (env : Env) (i sid : Nat) : Phase :=
  pseq (emit env (baunitStmtRC env i sid)) (pmod baunitEff)

def phaseBAUnitsS (env : Env) : Phase :=
  pwith fun c => plist (insertBAUnitS env) 0 c.spatialIds

def phaseBAUnitsRC (env : Env) : Phase :=
  pwith fun c => plist (insertBAUnitRC env) 0 c.spatialIds

/-! ### Phase 4: tax rate areas and tax rates (shared by both scripts) -/

def traStmt (p : String × String) : Stmt :=
  ⟨.tra, .ins, ["tra_code", "description"], [], [.s p.1, .s p.2]⟩

def traEff (c : Core) : Core :=
  { c with traIds := c.traIds ++ [c.nextTraId], nextTraId := c.nextTraId + 1 }

def insertTRA (env : Env) (p : String × String) : Phase :=
  pseq (emit env (traStmt p)) (pmod traEff)

def phaseTRA (env : Env) : Phase :=
  plist (fun _ p => insertTRA env p) 0 traCodes

def rateStmt (p : String × Rat) : Stmt :=
  ⟨.rate, .ins, ["rate_name", "rate_value", "effective_date",
   "expiration_date"], [],
   [.s p.1, .q p.2, .s "2020-01-01", .null]⟩

def rateEff (c : Core) : Core :=
  { c with taxRateIds := c.taxRateIds ++ [c.nextRateId],
           nextRateId := c.nextRateId + 1 }

def insertRate (env : Env) (p : String × Rat) : Phase :=
  pseq (emit env (rateStmt p)) (pmod rateEff)

def phaseRates (env : Env) : Phase :=
  plist (fun _ p => insertRate env p) 0 taxRatesData

/-- The `LA_BAUnit` UPDATE assigning a random TRA. -/
def assignStmt (buid tid : Nat) : Stmt :=
  ⟨.baunit, .upd, ["tra_id"], [], [.nat tid, .nat buid]⟩

def assignTRA (env : Env) (i buid : Nat) : Phase :=
  pwith fun c =>
    match pyChoice c.traIds (env.traIdx i) with
    | none => praise (.ixErr 4)
    | some tid =>
      pseq (emit env (assignStmt buid tid))
        (pmod fun c2 => { c2 with traAssign := c2.traAssign ++ [(buid, tid)] })

def phaseAssign (env : Env) : Phase :=
  pwith fun c => plist (assignTRA env) 0 c.baunitIds

/-! ### Phase 5: tax assessments (shared) -/

def assessStmt (env : Env) (i buid rid : Nat) : Stmt :=
  ⟨.assess, .ins,
   ["ba_unit_id", "assessment_year", "base_year", "base_year_value",
    "prop_13_factor", "current_assessed_value", "roll_type", "tax_rate_id"],
   [],
   [.nat buid,
    .nat (assessYears.getD (env.assessYearIdx i % assessYears.length) 0),
    .nat (baseYears.getD (env.baseYearIdx i % baseYears.length) 0),
    .q (pyUniform 100000 800000 (env.baseValU i)),
    .q (1 + env.factorU i * (1 / 10)),
    .q (pyUniform 100000 800000 (env.baseValU i)
        * (1 + env.factorU i * (1 / 10))),
    .s (rollTypes.getD (env.rollIdx i % rollTypes.length) ""),
    .nat rid]⟩

def insertAssess (env : Env) (i buid : Nat) : Phase :=
  pwith fun c =>
    match pyChoice c.taxRateIds (env.rateIdx i) with
    | none => praise (.ixErr 5)
    | some rid =>
      pseq (emit env (assessStmt env i buid rid))
        (pmod fun c2 =>
          { c2 with assessRows := c2.assessRows ++ [(buid, rid)] })

def phaseAssess (env : Env) : Phase :=
  pwith fun c => plist (insertAssess env) 0 c.baunitIds

/-! ### Phase 6: supplemental assessments (shared) -/

def suppStmt (env : Env) (i buid rid : Nat) : Stmt :=
  ⟨.supp, .ins,
   ["ba_unit_id", "event_date", "reason_code", "old_value", "new_value",
    "difference_value", "tax_rate_id"], [],
   [.nat buid, .int (env.suppDate i),
    .s (reasonCodes.getD (env.suppReasonIdx i % reasonCodes.length) ""),
    .q (pyUniform 100000 600000 (env.suppOldU i)),
    .q (pyUniform 100000 600000 (env.suppOldU i)
        + pyUniform 10000 60000 (env.suppDeltaU i)),
    .q (pyUniform 100000 600000 (env.suppOldU i)
        + pyUniform 10000 60000 (env.suppDeltaU i)
        - pyUniform 100000 600000 (env.suppOldU i)),
    .nat rid]⟩

def insertSupp (env : Env) (i buid : Nat) : Phase :=
  pwith fun c =>
    match pyChoice c.taxRateIds (env.suppRateIdx i) with
    | none => praise (.ixErr 6)
    | some rid =>
      pseq (emit env (suppStmt env i buid rid))
        (pmod fun c2 => { c2 with suppRows := c2.suppRows ++ [(buid, rid)] })

/-- `random.sample(baunit_ids, k=min(len(baunit_ids)//5, 10))` followed by
one INSERT per sampled unit. -/
def phaseSupp (env : Env) : Phase :=
  pwith fun c =>
    match pySample env.suppSel 0 c.baunitIds
        (min (c.baunitIds.length / 5) 10) with
    | none => praise (.smpErr 6)
    | some subset => plist (insertSupp env) 0 subset

/-! ### Phase 7: RRR ownership records (shared) -/

def rrrStmt (env : Env) (i buid pid : Nat) : Stmt :=
  ⟨.rrr, .ins, ["rrr_type", "ba_unit_id", "party_id", "start_date"], [],
   [.s "Ownership", .nat buid, .nat pid, .int (env.rrrDate i)]⟩

def insertRRR (env : Env) (i buid : Nat) : Phase :=
  pwith fun c =>
    match pyChoice c.partyIds (env.rrrPartyIdx i) with
    | none => praise (.ixErr 7)
    | some pid =>
      pseq (emit env (rrrStmt env i buid pid))
        (pmod fun c2 => { c2 with rrrRows := c2.rrrRows ++ [(buid, pid)] })

def phaseRRR (env : Env) : Phase :=
  pwith fun c => plist (insertRRR env) 0 c.baunitIds

/-! ### Phase 8: tax bills (shared) -/

def billStmt (env : Env) (i buid pid : Nat) : Stmt :=
  ⟨.bill, .ins,
   ["bill_date", "ba_unit_id", "party_id", "due_date", "amount_due",
    "is_paid", "bill_type", "supplemental_id"], [],
   [.int (env.billDate i), .nat buid, .nat pid, .int (env.billDate i + 30),
    .q (pyUniform 500 5000 (env.billAmtU i)), .b false,
    .s (billTypes.getD (env.billTypeIdx i % billTypes.length) ""), .null]⟩

/-- The row a bill insert creates, with the uid handed back by
`RETURNING bill_date, bill_uid`. -/
def mkBillRow (env : Env) (i buid pid uid : Nat) : BillRow :=
  ⟨env.billDate i, uid, buid, pid, env.billDate i + 30,
   pyUniform 500 5000 (env.billAmtU i), false,
   billTypes.getD (env.billTypeIdx i % billTypes.length) "", none⟩

def insertBill (env : Env) (i : Nat) : Phase :=
  pwith fun c =>
    match pyChoice c.baunitIds (env.billBuidIdx i) with
    | none => praise (.ixErr 8)
    | some buid =>
      match pyChoice c.partyIds (env.billPartyIdx i) with
      | none => praise (.ixErr 8)
      | some pid =>
        pseq (emit env (billStmt env i buid pid))
          (pmod fun c2 =>
            { c2 with
              insertedBills :=
                c2.insertedBills ++ [(env.billDate i, c2.nextBillUid)],
              bills := c2.bills ++ [mkBillRow env i buid pid c2.nextBillUid],
              nextBillUid := c2.nextBillUid + 1 })

def phaseBills (env : Env) (k : Nat) : Phase :=
  prange (insertBill env) 0 k

/-! ### Phase 9: tax payments (shared) -/

def payStmt (env : Env) (i j : Nat) (b : Int × Nat) : Stmt :=
  ⟨.pay, .ins, ["payment_date", "bill_date", "bill_uid", "amount_paid"], [],
   [.int (env.payDate i j), .int b.1, .nat b.2,
    .q (pyUniform 50 1000 (env.payAmtU i j))]⟩

def payOnce (env : Env) (i j : Nat) (b : Int × Nat) : Phase :=
  pseq (emit env (payStmt env i j b))
    (pmod fun c =>
      { c with payments := c.payments ++
          [⟨env.payDate i j, b.1, b.2, pyUniform 50 1000 (env.payAmtU i j)⟩] })

/-- `random.randint(1, 2)` payments for one sampled bill. -/
def payForBill (env : Env) (i : Nat) (b : Int × Nat) : Phase :=
  prange (fun j => payOnce env i j b) 0 (pyRandint 1 2 (env.payCntU i))

/-- `random.sample(inserted_bills, k=len(inserted_bills)//2)` followed by
1 or 2 payment inserts per sampled bill. -/
def phasePays (env : Env) : Phase :=
  pwith fun c =>
    match pySample env.paySel 0 c.insertedBills
        (c.insertedBills.length / 2) with
    | none => praise (.smpErr 9)
    | some half => plist (payForBill env) 0 half

/-! ### Phase 10: random paid flags (shared) -/

def paidStmt (b : Int × Nat) : Stmt :=
  ⟨.bill, .upd, ["is_paid"], [], [.b true, .int b.1, .nat b.2]⟩

/-- Effect of `UPDATE ladm.TaxBill SET is_paid = TRUE WHERE bill_date = %s
AND bill_uid = %s` on a list of bill rows. -/
def paidApply (b : Int × Nat) (rs : List BillRow) : List BillRow :=
  rs.map fun r =>
    if r.bill_date = b.1 ∧ r.bill_uid = b.2 then { r with is_paid := true }
    else r

/-- The same update as an effect on the whole state. -/
def setPaid (b : Int × Nat) (c : Core) : Core :=
  { c with bills := paidApply b c.bills }

/-- `if random.random() < 0.5`, flip the bill's paid flag. -/
def flipPaid (env : Env) (i : Nat) (b : Int × Nat) : Phase :=
  if env.paidU i < mkRat 1 2 then
    pseq (emit env (paidStmt b)) (pmod (setPaid b))
  else pskip

def phasePaid (env : Env) : Phase :=
  pwith fun c => plist (flipPaid env) 0 c.insertedBills

/-! ### Whole runs -/

/-- The shared tail (phases 4 to 10) of both scripts, given the requested
bill count. -/
def phasesTail (env : Env) (numBills : Nat) : Phase :=
  pseq (phaseTRA env) (pseq (phaseRates env) (pseq (phaseAssign env)
    (pseq (phaseAssess env) (pseq (phaseSupp env) (pseq (phaseRRR env)
      (pseq (phaseBills env numBills)
        (pseq (phasePays env) (phasePaid env))))))))

/-- `seed_data` of `seeder.py` up to commit: phases 1 to 10 in order. -/
def seedPhasesS (env : Env) (numParties numParcels numBills : Nat) : Phase :=
  pseq (phasePartiesS env numParties)
    (pseq (phaseSpatialS env numParcels)
      (pseq (phaseBAUnitsS env) (phasesTail env numBills)))

/-- `seed_data` of `seeder_rc.py` up to commit. -/
def seedPhasesRC (env : Env) (numParties numParcels numBills : Nat) : Phase :=
  pseq (phasePartiesRC env numParties)
    (pseq (phaseSpatialRC env numParcels)
      (pseq (phaseBAUnitsRC env) (phasesTail env numBills)))

def runS (env : Env) (numParties numParcels numBills : Nat) :
    Except (Err × List Stmt) (Core × List Stmt) :=
  seedPhasesS env numParties numParcels numBills initCore

def runRC (env : Env) (numParties numParcels numBills : Nat) :
    Except (Err × List Stmt) (Core × List Stmt) :=
  seedPhasesRC env numParties numParcels numBills initCore

/-- Whether a run of `seeder.py` completes without an exception. -/
def successS (env : Env) (numParties numParcels numBills : Nat) : Bool :=
  match runS env numParties numParcels numBills with
  | .ok _ => true
  | .error _ => false

/-- Final in-memory state of a successful `seeder.py` run (initial state
when the run fails). -/
def coreS (env : Env) (numParties numParcels numBills : Nat) : Core :=
  match runS env numParties numParcels numBills with
  | .ok p => p.1
  | .error _ => initCore

/-- Statements executed by a `seeder.py` run (up to the failure point when
the run fails). -/
def traceS (env : Env) (numParties numParcels numBills : Nat) : List Stmt :=
  match runS env numParties numParcels numBills with
  | .ok p => p.2
  | .error e => e.2

def successRC (env : Env) (numParties numParcels numBills : Nat) : Bool :=
  match runRC env numParties numParcels numBills with
  | .ok _ => true
  | .error _ => false

def coreRC (env : Env) (numParties numParcels numBills : Nat) : Core :=
  match runRC env numParties numParcels numBills with
  | .ok p => p.1
  | .error _ => initCore

def traceRC (env : Env) (numParties numParcels numBills : Nat) : List Stmt :=
  match runRC env numParties numParcels numBills with
  | .ok p => p.2
  | .error e => e.2

/-! ### Transaction wrapper -/

/-- Observable transaction events of a run. -/
inductive Event where
  | stmt (s : Stmt)
  | commit
  | rollback
deriving DecidableEq, Repr

/-- Outcome of `seed_data` as a whole: the event sequence, the state that
remains committed (none after a rollback), and the exception re-raised to
the caller (none on success). -/
structure SeedOutcome where
  events : List Event
  committed : Option Core
  raised : Option Err
deriving Repr

/-- The `try / commit / except / rollback / raise` wrapper of `seed_data`
(`seeder.py`). -/
def seedDataS (env : Env) (numParties numParcels numBills : Nat) :
    SeedOutcome :=
  match runS env numParties numParcels numBills with
  | .ok (c, tr) => ⟨tr.map .stmt ++ [.commit], some c, none⟩
  | .error (e, tr) => ⟨tr.map .stmt ++ [.rollback], none, some e⟩

/-- The same wrapper for `seeder_rc.py`. -/
def seedDataRC (env : Env) (numParties numParcels numBills : Nat) :
    SeedOutcome :=
  match runRC env numParties numParcels numBills with
  | .ok (c, tr) => ⟨tr.map .stmt ++ [.commit], some c, none⟩
  | .error (e, tr) => ⟨tr.map .stmt ++ [.rollback], none, some e⟩

/-! ### Counting helpers -/

/-- Is `s` an INSERT into table `t`? -/
def isIns (t : Tbl) (s : Stmt) : Bool :=
  s.table = t && s.kind = .ins

/-- Number of INSERT statements into table `t` in a trace. -/
def insCount (t : Tbl) (tr : List Stmt) : Nat :=
  tr.countP (isIns t)

/-- Number of payment rows referencing the bill with key `b`. -/
def payCount (b : Int × Nat) (ps : List PayRow) : Nat :=
  (ps.filter fun p => p.bill_date = b.1 && p.bill_uid = b.2).length

/-! ### Derived closed forms

The definitions below are not part of the embedded scripts; they are the
explicit values that a successful run's state and trace are proved equal
to.  Each mirrors one loop of `seed_data`. -/

/-- `random.choice` with a default, used in closed forms at places where a
successful run guarantees the list is non-empty. -/
def chooseD (xs : List Nat) (i : Nat) : Nat :=
  (pyChoice xs i).getD 0

/-- Map an index-aware function over a list, indices starting at `s`. -/
def mapIdxFrom (f : Nat → α → β) : Nat → List α → List β
  | _, [] => []
  | s, x :: xs => f s x :: mapIdxFrom f (s + 1) xs

/-- Pairs `(b, chosen id)` produced by a loop over `B` that draws one
element of `R` per iteration via the index oracle `f`. -/
def choosePairs (f : Nat → Nat) (R : List Nat) : Nat → List Nat → List (Nat × Nat)
  | _, [] => []
  | s, b :: bs => (b, chooseD R (f s)) :: choosePairs f R (s + 1) bs

/-- Statements produced by such a loop, one per iteration. -/
def chooseTrace (mk : Nat → Nat → Nat → Stmt) (f : Nat → Nat) (R : List Nat) :
    Nat → List Nat → List Stmt
  | _, [] => []
  | s, b :: bs => mk s b (chooseD R (f s)) :: chooseTrace mk f R (s + 1) bs

/-- The `(bill_date, bill_uid)` keys captured by the bill loop: loop index
`i`, next uid `u`, `k` bills to go. -/
def billKeys (env : Env) : Nat → Nat → Nat → List (Int × Nat)
  | _, _, 0 => []
  | i, u, k + 1 => (env.billDate i, u) :: billKeys env (i + 1) (u + 1) k

/-- The bill rows created by the bill loop, drawing from the captured
baunit list `B` and party list `P`. -/
def billRowsL (env : Env) (B P : List Nat) : Nat → Nat → Nat → List BillRow
  | _, _, 0 => []
  | i, u, k + 1 =>
    mkBillRow env i (chooseD B (env.billBuidIdx i)) (chooseD P (env.billPartyIdx i)) u
      :: billRowsL env B P (i + 1) (u + 1) k

/-- The bill INSERT statements of the bill loop. -/
def billTr (env : Env) (B P : List Nat) : Nat → Nat → List Stmt
  | _, 0 => []
  | i, k + 1 =>
    billStmt env i (chooseD B (env.billBuidIdx i)) (chooseD P (env.billPartyIdx i))
      :: billTr env B P (i + 1) k

/-- The payment rows created for the sampled bill at position `i`. -/
def payRowsFor (env : Env) (i : Nat) (b : Int × Nat) : List PayRow :=
  (List.range (pyRandint 1 2 (env.payCntU i))).map fun j =>
    ⟨env.payDate i j, b.1, b.2, pyUniform 50 1000 (env.payAmtU i j)⟩

/-- The payment rows of the whole payment loop over the sampled half. -/
def payRowsL (env : Env) : Nat → List (Int × Nat) → List PayRow
  | _, [] => []
  | i, b :: bs => payRowsFor env i b ++ payRowsL env (i + 1) bs

/-- The payment INSERT statements of the payment loop. -/
def payTr (env : Env) : Nat → List (Int × Nat) → List Stmt
  | _, [] => []
  | i, b :: bs =>
    (List.range (pyRandint 1 2 (env.payCntU i))).map (fun j => payStmt env i j b)
      ++ payTr env (i + 1) bs

/-- Effect of the paid-flag loop on the bill rows: one coin flip per
captured bill key, in order. -/
def paidFold (env : Env) : Nat → List (Int × Nat) → List BillRow → List BillRow
  | _, [], rs => rs
  | i, b :: bs, rs =>
    paidFold env (i + 1) bs (if env.paidU i < mkRat 1 2 then paidApply b rs else rs)

/-- The UPDATE statements of the paid-flag loop. -/
def paidTr (env : Env) : Nat → List (Int × Nat) → List Stmt
  | _, [] => []
  | i, b :: bs =>
    (if env.paidU i < mkRat 1 2 then [paidStmt b] else []) ++ paidTr env (i + 1) bs

/-- Pointwise form of the paid-flag loop when every row is hit by exactly
its own key: flip row `j` when draw `s + j` is below one half. -/
def flipAll (env : Env) : Nat → List BillRow → List BillRow
  | _, [] => []
  | s, r :: rs =>
    (if env.paidU s < mkRat 1 2 then { r with is_paid := true } else r)
      :: flipAll env (s + 1) rs

/-- Key of a bill row. -/
def rowKey (r : BillRow) : Int × Nat := (r.bill_date, r.bill_uid)

/-! ### Statement shapes used to compare the two scripts -/

/-- Erase the vocabulary a statement carries: the party-name text, the
address text and the interpolated geometry text of the spatial insert. -/
def maskVocab (s : Stmt) : Stmt :=
  match s.table, s.kind with
  | .party, .ins => { s with params := Value.s "" :: s.params.tail }
  | .spatial, .ins =>
    { s with interp := [], params := Value.s "" :: s.params.tail }
  | _, _ => s

/-- Drop the fourth column (and its parameter) of the BAUnit insert, the
column on which the two scripts structurally differ. -/
def dropCol4 (s : Stmt) : Stmt :=
  match s.table, s.kind with
  | .baunit, .ins =>
    { s with columns := s.columns.take 3, params := s.params.take 3 }
  | _, _ => s

/-- Replace the payment-phase draws of an oracle, leaving every other draw
(including the paid coin flips) unchanged. -/
def withPayData (e : Env) (ps pc : Nat → Nat) (pd : Nat → Nat → Int)
    (pa : Nat → Nat → Rat) : Env :=
  { e with paySel := ps, payCntU := pc, payDate := pd, payAmtU := pa }

/-! ### Loop folds and per-iteration step functions -/

/-- Iterated pure effect of a counted loop. -/
def effFold (eff : Nat → Core → Core) : Nat → Nat → Core → Core
  | _, 0, c => c
  | s, n + 1, c => effFold eff (s + 1) n (eff s c)

/-- Iterated trace of a counted loop. -/
def outFold (eff : Nat → Core → Core) (out : Nat → Core → List Stmt) :
    Nat → Nat → Core → List Stmt
  | _, 0, _ => []
  | s, n + 1, c => out s c ++ outFold eff out (s + 1) n (eff s c)

/-- Iterated pure effect of a loop over a list. -/
def effFoldL (eff : Nat → α → Core → Core) : Nat → List α → Core → Core
  | _, [], c => c
  | s, x :: xs, c => effFoldL eff (s + 1) xs (eff s x c)

/-- Iterated trace of a loop over a list. -/
def outFoldL (eff : Nat → α → Core → Core)
    (out : Nat → α → Core → List Stmt) : Nat → List α → Core → List Stmt
  | _, [], _ => []
  | s, x :: xs, c => out s x c ++ outFoldL eff out (s + 1) xs (eff s x c)

/-- Per-iteration effect of the TRA assignment loop. -/
def assignStep (env : Env) (i b : Nat) (c : Core) : Core :=
  { bump c with
    traAssign := c.traAssign ++ [(b, chooseD c.traIds (env.traIdx i))] }

/-- Per-iteration effect of the assessment loop. -/
def assessStep (env : Env) (i b : Nat) (c : Core) : Core :=
  { bump c with
    assessRows := c.assessRows ++ [(b, chooseD c.taxRateIds (env.rateIdx i))] }

/-- Per-iteration effect of the supplemental-assessment loop. -/
def suppStep (env : Env) (i b : Nat) (c : Core) : Core :=
  { bump c with
    suppRows := c.suppRows ++ [(b, chooseD c.taxRateIds (env.suppRateIdx i))] }

/-- Per-iteration effect of the ownership loop. -/
def rrrStep (env : Env) (i b : Nat) (c : Core) : Core :=
  { bump c with
    rrrRows := c.rrrRows ++ [(b, chooseD c.partyIds (env.rrrPartyIdx i))] }

/-- Per-iteration effect of the bill loop. -/
def billStep (env : Env) (i : Nat) (c : Core) : Core :=
  { bump c with
    insertedBills := c.insertedBills ++ [(env.billDate i, c.nextBillUid)],
    bills := c.bills ++ [mkBillRow env i (chooseD c.baunitIds (env.billBuidIdx i))
      (chooseD c.partyIds (env.billPartyIdx i)) c.nextBillUid],
    nextBillUid := c.nextBillUid + 1 }

/-- Per-iteration effect of one payment insert for sampled bill `b`. -/
def payStep (env : Env) (i j : Nat) (b : Int × Nat) (c : Core) : Core :=
  { bump c with payments := c.payments ++
      [⟨env.payDate i j, b.1, b.2, pyUniform 50 1000 (env.payAmtU i j)⟩] }

/-- Per-iteration effect of the paid-flag loop. -/
def flipStep (env : Env) (i : Nat) (b : Int × Nat) (c : Core) : Core :=
  if env.paidU i < mkRat 1 2 then setPaid b (bump c) else c

/-- Statement sequences of the four choice-driven loops. -/
def assignTrace (env : Env) : List Nat → Nat → List Nat → List Stmt :=
  chooseTrace (fun _ b tid => assignStmt b tid) env.traIdx

def assessTrace (env : Env) : List Nat → Nat → List Nat → List Stmt :=
  chooseTrace (fun i b rid => assessStmt env i b rid) env.rateIdx

def suppTrace (env : Env) : List Nat → Nat → List Nat → List Stmt :=
  chooseTrace (fun i b rid => suppStmt env i b rid) env.suppRateIdx

def rrrTrace (env : Env) : List Nat → Nat → List Nat → List Stmt :=
  chooseTrace (fun i b pid => rrrStmt env i b pid) env.rrrPartyIdx

/-- A concrete oracle with constant draws, used to evaluate the model on
concrete runs. -/
def envC : Env :=
  ⟨none, fun _ => "Jane Roe", fun _ => 0, fun _ => "123456789",
   fun _ => "1 Main St\nTown", fun _ => 0, fun _ => 0, fun _ => "000001",
   fun _ => 0, fun _ => "ABCD", fun _ => "111-222-333", fun _ => 0,
   fun _ => 0, fun _ => "Magnolia", fun _ => 0, fun _ => 0, fun _ => 0,
   fun _ => 0, fun _ => 0, fun _ => 0, fun _ => 0, fun _ => 0, fun _ => 0,
   fun _ => 0, fun _ => 0, fun _ => 0, fun _ => 0, fun _ => 0, fun _ => 0,
   fun _ => 0, fun _ => 0, fun _ => 0, fun _ => 0, fun _ => 0, fun _ => 0,
   fun _ => 0, fun _ => 0, fun _ => 0, fun _ => 0, fun _ _ => 0,
   fun _ _ => 0, fun _ => 0⟩

/-! ## Lemma kit: draw helpers -/

theorem pyChoice_some_mem {xs : List α} {i : Nat} {x : α}
    (h : pyChoice xs i = some x) : x ∈ xs :=
  List.getElem?_mem h

theorem pyChoice_ne_nil {xs : List α} {i : Nat} {x : α}
    (h : pyChoice xs i = some x) : xs ≠ [] := by
  intro e
  subst e
  simp [pyChoice] at h

theorem pyChoice_some_of_ne_nil {xs : List α} (h : xs ≠ []) (i : Nat) :
    ∃ x, pyChoice xs i = some x := by
  have hl : 0 < xs.length := List.length_pos.mpr h
  exact ⟨_, List.getElem?_eq_getElem (Nat.mod_lt _ hl)⟩

theorem chooseD_eq {xs : List Nat} {i x : Nat} (h : pyChoice xs i = some x) :
    chooseD xs i = x := by
  unfold chooseD
  rw [h]
  rfl

theorem chooseD_mem {xs : List Nat} (h : xs ≠ []) (i : Nat) :
    chooseD xs i ∈ xs := by
  obtain ⟨x, hx⟩ := pyChoice_some_of_ne_nil h i
  rw [chooseD_eq hx]
  exact pyChoice_some_mem hx

theorem pyRandint_one_two (u : Nat) :
    1 ≤ pyRandint 1 2 u ∧ pyRandint 1 2 u ≤ 2 := by
  unfold pyRandint
  omega

theorem pySample_length {sel : Nat → Nat} :
    ∀ (k off : Nat) (xs l : List α),
      pySample sel off xs k = some l → l.length = k := by
  intro k
  induction k with
  | zero =>
    intro off xs l h
    simp only [pySample] at h
    cases h
    rfl
  | succ k ih =>
    intro off xs l h
    unfold pySample at h
    cases hg : xs[sel off % xs.length]? with
    | none => rw [hg] at h; cases h
    | some x =>
      rw [hg] at h
      cases hr : pySample sel (off + 1) (xs.eraseIdx (sel off % xs.length)) k with
      | none => rw [hr] at h; cases h
      | some r =>
        rw [hr] at h
        cases h
        simp [ih _ _ _ hr]

theorem pySample_subset {sel : Nat → Nat} :
    ∀ (k off : Nat) (xs l : List α),
      pySample sel off xs k = some l → ∀ a ∈ l, a ∈ xs := by
  intro k
  induction k with
  | zero =>
    intro off xs l h
    simp only [pySample] at h
    cases h
    simp
  | succ k ih =>
    intro off xs l h
    unfold pySample at h
    cases hg : xs[sel off % xs.length]? with
    | none => rw [hg] at h; cases h
    | some x =>
      rw [hg] at h
      cases hr : pySample sel (off + 1) (xs.eraseIdx (sel off % xs.length)) k with
      | none => rw [hr] at h; cases h
      | some r =>
        rw [hr] at h
        cases h
        intro a ha
        rcases List.mem_cons.mp ha with h1 | h2
        · subst h1; exact List.getElem?_mem hg
        · exact List.eraseIdx_subset _ _ (ih _ _ _ hr a h2)

theorem pySample_nodup {sel : Nat → Nat} :
    ∀ (k off : Nat) (xs l : List α),
      xs.Nodup → pySample sel off xs k = some l → l.Nodup := by
  intro k
  induction k with
  | zero =>
    intro off xs l _ h
    simp only [pySample] at h
    cases h
    exact List.nodup_nil
  | succ k ih =>
    intro off xs l hnd h
    unfold pySample at h
    cases hg : xs[sel off % xs.length]? with
    | none => rw [hg] at h; cases h
    | some x =>
      rw [hg] at h
      cases hr : pySample sel (off + 1) (xs.eraseIdx (sel off % xs.length)) k with
      | none => rw [hr] at h; cases h
      | some r =>
        rw [hr] at h
        cases h
        have hnd2 : (xs.eraseIdx (sel off % xs.length)).Nodup :=
          (List.eraseIdx_sublist xs _).nodup hnd
        refine List.nodup_cons.mpr ⟨?_, ih _ _ _ hnd2 hr⟩
        intro hxr
        have hxe : x ∈ xs.eraseIdx (sel off % xs.length) :=
          pySample_subset k _ _ _ hr x hxr
        obtain ⟨j, hj, hjk, hjx⟩ := List.mem_eraseIdx_iff_getElem.mp hxe
        obtain ⟨hi, hix⟩ := List.getElem?_eq_some.mp hg
        exact hjk ((hnd.getElem_inj_iff).mp (hjx.trans hix.symm))

theorem pySample_some_of_le {sel : Nat → Nat} :
    ∀ (k off : Nat) (xs : List α),
      k ≤ xs.length → ∃ l, pySample sel off xs k = some l := by
  intro k
  induction k with
  | zero => intro off xs _; exact ⟨[], rfl⟩
  | succ k ih =>
    intro off xs hk
    have hl : 0 < xs.length := Nat.lt_of_lt_of_le (Nat.succ_pos k) hk
    have hi : sel off % xs.length < xs.length := Nat.mod_lt _ hl
    have hlen : (xs.eraseIdx (sel off % xs.length)).length = xs.length - 1 := by
      rw [List.length_eraseIdx]
      simp [hi]
    obtain ⟨r, hr⟩ := ih (off + 1) (xs.eraseIdx (sel off % xs.length)) (by omega)
    refine ⟨xs[sel off % xs.length] :: r, ?_⟩
    unfold pySample
    rw [List.getElem?_eq_getElem hi, hr]
    rfl

/-! ## Lemma kit: phase combinators -/

theorem pseq_ok {p q : Phase} {c : Core} {r : Core × List Stmt}
    (h : pseq p q c = .ok r) :
    ∃ c1 t1 t2, p c = .ok (c1, t1) ∧ q c1 = .ok (r.1, t2) ∧
      r.2 = t1 ++ t2 := by
  unfold pseq at h
  split at h
  · cases h
  · rename_i c1 t1 hp
    split at h
    · cases h
    · rename_i c2 t2 hq
      cases h
      exact ⟨c1, t1, t2, hp, hq, rfl⟩

theorem pseq_mk {p q : Phase} {c c1 c2 : Core} {t1 t2 : List Stmt}
    (hp : p c = .ok (c1, t1)) (hq : q c1 = .ok (c2, t2)) :
    pseq p q c = .ok (c2, t1 ++ t2) := by
  unfold pseq
  rw [hp]
  dsimp only
  rw [hq]

theorem pseq_err_left {p q : Phase} {c : Core} {e : Err} {t : List Stmt}
    (hp : p c = .error (e, t)) : pseq p q c = .error (e, t) := by
  unfold pseq
  rw [hp]

theorem pseq_err_right {p q : Phase} {c c1 : Core} {t1 : List Stmt}
    {e : Err} {t2 : List Stmt} (hp : p c = .ok (c1, t1))
    (hq : q c1 = .error (e, t2)) : pseq p q c = .error (e, t1 ++ t2) := by
  unfold pseq
  rw [hp]
  dsimp only
  rw [hq]

theorem emit_ok {env : Env} {s : Stmt} {c c2 : Core} {t : List Stmt}
    (h : emit env s c = .ok (c2, t)) : c2 = bump c ∧ t = [s] := by
  unfold emit at h
  split at h
  · cases h
  · cases h
    exact ⟨rfl, rfl⟩

theorem emit_ok_of_none {env : Env} (hf : env.failAt = none) (s : Stmt)
    (c : Core) : emit env s c = .ok (bump c, [s]) := by
  unfold emit
  rw [hf]
  rfl

/-- Success shape of the common body pattern: execute one statement, then
capture its effect. -/
theorem emitmod_char {env : Env} {st : Stmt} {f : Core → Core} {c c2 : Core}
    {t : List Stmt} (h : pseq (emit env st) (pmod f) c = .ok (c2, t)) :
    c2 = f (bump c) ∧ t = [st] := by
  obtain ⟨c1, t1, t2, hp, hq, hr⟩ := pseq_ok h
  obtain ⟨hc1, ht1⟩ := emit_ok hp
  unfold pmod at hq
  cases hq
  subst hc1 ht1
  exact ⟨rfl, hr⟩

/-! ## Lemma kit: loop characterization engines -/

theorem prange_char {body : Nat → Phase} {eff : Nat → Core → Core}
    {out : Nat → Core → List Stmt}
    (hb : ∀ i c c2 t, body i c = .ok (c2, t) → c2 = eff i c ∧ t = out i c) :
    ∀ (n s : Nat) (c c2 : Core) (t : List Stmt),
      prange body s n c = .ok (c2, t) →
      c2 = effFold eff s n c ∧ t = outFold eff out s n c := by
  intro n
  induction n with
  | zero =>
    intro s c c2 t h
    unfold prange pskip at h
    cases h
    exact ⟨rfl, rfl⟩
  | succ n ih =>
    intro s c c2 t h
    unfold prange at h
    obtain ⟨c1, t1, t2, hp, hq, hr⟩ := pseq_ok h
    obtain ⟨he, ht⟩ := hb s c c1 t1 hp
    obtain ⟨he2, ht2⟩ := ih (s + 1) c1 c2 t2 hq
    subst he ht he2 ht2
    exact ⟨rfl, hr⟩

theorem plist_char {body : Nat → α → Phase} {eff : Nat → α → Core → Core}
    {out : Nat → α → Core → List Stmt}
    (hb : ∀ i x c c2 t, body i x c = .ok (c2, t) →
      c2 = eff i x c ∧ t = out i x c) :
    ∀ (xs : List α) (s : Nat) (c c2 : Core) (t : List Stmt),
      plist body s xs c = .ok (c2, t) →
      c2 = effFoldL eff s xs c ∧ t = outFoldL eff out s xs c := by
  intro xs
  induction xs with
  | nil =>
    intro s c c2 t h
    unfold plist pskip at h
    cases h
    exact ⟨rfl, rfl⟩
  | cons x xs ih =>
    intro s c c2 t h
    unfold plist at h
    obtain ⟨c1, t1, t2, hp, hq, hr⟩ := pseq_ok h
    obtain ⟨he, ht⟩ := hb s x c c1 t1 hp
    obtain ⟨he2, ht2⟩ := ih (s + 1) c1 c2 t2 hq
    subst he ht he2 ht2
    exact ⟨rfl, hr⟩

theorem prange_ok_inv {body : Nat → Phase} {P : Core → Prop}
    (hb : ∀ i c, P c → ∃ c2 t, body i c = .ok (c2, t) ∧ P c2) :
    ∀ (n s : Nat) (c : Core), P c →
      ∃ c2 t, prange body s n c = .ok (c2, t) ∧ P c2 := by
  intro n
  induction n with
  | zero =>
    intro s c hc
    exact ⟨c, [], rfl, hc⟩
  | succ n ih =>
    intro s c hc
    obtain ⟨c1, t1, h1, hP1⟩ := hb s c hc
    obtain ⟨c2, t2, h2, hP2⟩ := ih (s + 1) c1 hP1
    exact ⟨c2, t1 ++ t2, pseq_mk h1 h2, hP2⟩

theorem plist_ok_inv {body : Nat → α → Phase} {P : Core → Prop}
    (hb : ∀ i x c, P c → ∃ c2 t, body i x c = .ok (c2, t) ∧ P c2) :
    ∀ (xs : List α) (s : Nat) (c : Core), P c →
      ∃ c2 t, plist body s xs c = .ok (c2, t) ∧ P c2 := by
  intro xs
  induction xs with
  | nil =>
    intro s c hc
    exact ⟨c, [], rfl, hc⟩
  | cons x xs ih =>
    intro s c hc
    obtain ⟨c1, t1, h1, hP1⟩ := hb s x c hc
    obtain ⟨c2, t2, h2, hP2⟩ := ih (s + 1) c1 hP1
    exact ⟨c2, t1 ++ t2, pseq_mk h1 h2, hP2⟩

/-! ## Phase characterizations -/

theorem outFold_const {eff : Nat → Core → Core} {g : Nat → Stmt} :
    ∀ (n s : Nat) (c : Core),
      outFold eff (fun i _ => [g i]) s n c = (List.range' s n).map g := by
  intro n
  induction n with
  | zero => intro s c; simp [outFold]
  | succ n ih =>
    intro s c
    rw [outFold, ih]
    simp [List.range'_succ]

theorem effFold_party : ∀ (n s : Nat) (c : Core),
    effFold (fun _ c => partyEff (bump c)) s n c =
      { c with stmtCount := c.stmtCount + n,
               nextPartyId := c.nextPartyId + n,
               partyIds := c.partyIds ++ List.range' c.nextPartyId n } := by
  intro n
  induction n with
  | zero => intro s c; simp [effFold]
  | succ n ih =>
    intro s c
    rw [effFold, ih]
    simp [partyEff, bump, List.range'_succ, Core.mk.injEq]
    omega

theorem phasePartiesS_char {env : Env} {n : Nat} {c c2 : Core} {t : List Stmt}
    (h : phasePartiesS env n c = .ok (c2, t)) :
    c2 = { c with
           stmtCount := c.stmtCount + n,
           nextPartyId := c.nextPartyId + n,
           partyIds := c.partyIds ++ List.range' c.nextPartyId n }
    ∧ t = (List.range' 0 n).map (partyStmtS env) := by
  obtain ⟨he, ht⟩ :=
    @prange_char (insertPartyS env) (fun _ c => partyEff (bump c))
      (fun i _ => [partyStmtS env i]) (fun i c c2 t h => emitmod_char h)
      n 0 c c2 t h
  exact ⟨he.trans (effFold_party n 0 c), ht.trans (outFold_const n 0 c)⟩

theorem phasePartiesRC_char {env : Env} {n : Nat} {c c2 : Core}
    {t : List Stmt} (h : phasePartiesRC env n c = .ok (c2, t)) :
    c2 = { c with
           stmtCount := c.stmtCount + n,
           nextPartyId := c.nextPartyId + n,
           partyIds := c.partyIds ++ List.range' c.nextPartyId n }
    ∧ t = (List.range' 0 n).map (partyStmtRC env) := by
  obtain ⟨he, ht⟩ :=
    @prange_char (insertPartyRC env) (fun _ c => partyEff (bump c))
      (fun i _ => [partyStmtRC env i]) (fun i c c2 t h => emitmod_char h)
      n 0 c c2 t h
  exact ⟨he.trans (effFold_party n 0 c), ht.trans (outFold_const n 0 c)⟩

theorem effFold_spatial : ∀ (n s : Nat) (c : Core),
    effFold (fun _ c => spatialEff (bump c)) s n c =
      { c with
        stmtCount := c.stmtCount + n,
        nextSpatialId := c.nextSpatialId + n,
        spatialIds := c.spatialIds ++ List.range' c.nextSpatialId n } := by
  intro n
  induction n with
  | zero => intro s c; simp [effFold]
  | succ n ih =>
    intro s c
    rw [effFold, ih]
    simp [spatialEff, bump, List.range'_succ, Core.mk.injEq]
    omega

theorem phaseSpatialS_char {env : Env} {n : Nat} {c c2 : Core}
    {t : List Stmt} (h : phaseSpatialS env n c = .ok (c2, t)) :
    c2 = { c with
           stmtCount := c.stmtCount + n,
           nextSpatialId := c.nextSpatialId + n,
           spatialIds := c.spatialIds ++ List.range' c.nextSpatialId n }
    ∧ t = (List.range' 0 n).map (spatialStmtS env) := by
  obtain ⟨he, ht⟩ :=
    @prange_char (insertSpatialS env) (fun _ c => spatialEff (bump c))
      (fun i _ => [spatialStmtS env i]) (fun i c c2 t h => emitmod_char h)
      n 0 c c2 t h
  exact ⟨he.trans (effFold_spatial n 0 c), ht.trans (outFold_const n 0 c)⟩

theorem phaseSpatialRC_char {env : Env} {n : Nat} {c c2 : Core}
    {t : List Stmt} (h : phaseSpatialRC env n c = .ok (c2, t)) :
    c2 = { c with
           stmtCount := c.stmtCount + n,
           nextSpatialId := c.nextSpatialId + n,
           spatialIds := c.spatialIds ++ List.range' c.nextSpatialId n }
    ∧ t = (List.range' 0 n).map (spatialStmtRC env) := by
  obtain ⟨he, ht⟩ :=
    @prange_char (insertSpatialRC env) (fun _ c => spatialEff (bump c))
      (fun i _ => [spatialStmtRC env i]) (fun i c c2 t h => emitmod_char h)
      n 0 c c2 t h
  exact ⟨he.trans (effFold_spatial n 0 c), ht.trans (outFold_const n 0 c)⟩

theorem outFoldL_const {eff : Nat → α → Core → Core} {g : Nat → α → Stmt} :
    ∀ (xs : List α) (s : Nat) (c : Core),
      outFoldL eff (fun i x _ => [g i x]) s xs c = mapIdxFrom g s xs := by
  intro xs
  induction xs with
  | nil => intro s c; simp [outFoldL, mapIdxFrom]
  | cons x xs ih =>
    intro s c
    rw [outFoldL, ih]
    simp [mapIdxFrom]

theorem mapIdxFrom_constIdx {g : α → β} :
    ∀ (xs : List α) (s : Nat), mapIdxFrom (fun _ x => g x) s xs = xs.map g := by
  intro xs
  induction xs with
  | nil => intro s; rfl
  | cons x xs ih => intro s; simp [mapIdxFrom, ih]

theorem effFoldL_baunit : ∀ (xs : List Nat) (s : Nat) (c : Core),
    effFoldL (fun _ _ c => baunitEff (bump c)) s xs c =
      { c with
        stmtCount := c.stmtCount + xs.length,
        nextBaUnitId := c.nextBaUnitId + xs.length,
        baunitIds := c.baunitIds ++ List.range' c.nextBaUnitId xs.length } := by
  intro xs
  induction xs with
  | nil => intro s c; simp [effFoldL]
  | cons x xs ih =>
    intro s c
    rw [effFoldL, ih]
    simp [baunitEff, bump, List.range'_succ, Core.mk.injEq]
    omega

theorem phaseBAUnitsS_char {env : Env} {c c2 : Core} {t : List Stmt}
    (h : phaseBAUnitsS env c = .ok (c2, t)) :
    c2 = { c with
           stmtCount := c.stmtCount + c.spatialIds.length,
           nextBaUnitId := c.nextBaUnitId + c.spatialIds.length,
           baunitIds := c.baunitIds ++
             List.range' c.nextBaUnitId c.spatialIds.length }
    ∧ t = mapIdxFrom (baunitStmtS env) 0 c.spatialIds := by
  unfold phaseBAUnitsS pwith at h
  dsimp only at h
  obtain ⟨he, ht⟩ :=
    @plist_char _ (insertBAUnitS env) (fun _ _ c => baunitEff (bump c))
      (fun i x _ => [baunitStmtS env i x]) (fun i x c c2 t h => emitmod_char h)
      c.spatialIds 0 c c2 t h
  exact ⟨he.trans (effFoldL_baunit c.spatialIds 0 c),
         ht.trans (outFoldL_const c.spatialIds 0 c)⟩

theorem phaseBAUnitsRC_char {env : Env} {c c2 : Core} {t : List Stmt}
    (h : phaseBAUnitsRC env c = .ok (c2, t)) :
    c2 = { c with
           stmtCount := c.stmtCount + c.spatialIds.length,
           nextBaUnitId := c.nextBaUnitId + c.spatialIds.length,
           baunitIds := c.baunitIds ++
             List.range' c.nextBaUnitId c.spatialIds.length }
    ∧ t = mapIdxFrom (baunitStmtRC env) 0 c.spatialIds := by
  unfold phaseBAUnitsRC pwith at h
  dsimp only at h
  obtain ⟨he, ht⟩ :=
    @plist_char _ (insertBAUnitRC env) (fun _ _ c => baunitEff (bump c))
      (fun i x _ => [baunitStmtRC env i x]) (fun i x c c2 t h => emitmod_char h)
      c.spatialIds 0 c c2 t h
  exact ⟨he.trans (effFoldL_baunit c.spatialIds 0 c),
         ht.trans (outFoldL_const c.spatialIds 0 c)⟩

theorem effFoldL_tra : ∀ (xs : List (String × String)) (s : Nat) (c : Core),
    effFoldL (fun _ _ c => traEff (bump c)) s xs c =
      { c with
        stmtCount := c.stmtCount + xs.length,
        nextTraId := c.nextTraId + xs.length,
        traIds := c.traIds ++ List.range' c.nextTraId xs.length } := by
  intro xs
  induction xs with
  | nil => intro s c; simp [effFoldL]
  | cons x xs ih =>
    intro s c
    rw [effFoldL, ih]
    simp [traEff, bump, List.range'_succ, Core.mk.injEq]
    omega

theorem phaseTRA_char {env : Env} {c c2 : Core} {t : List Stmt}
    (h : phaseTRA env c = .ok (c2, t)) :
    c2 = { c with
           stmtCount := c.stmtCount + 3,
           nextTraId := c.nextTraId + 3,
           traIds := c.traIds ++ List.range' c.nextTraId 3 }
    ∧ t = traCodes.map traStmt := by
  obtain ⟨he, ht⟩ :=
    @plist_char _ (fun _ p => insertTRA env p) (fun _ _ c => traEff (bump c))
      (fun _ p _ => [traStmt p]) (fun i x c c2 t h => emitmod_char h)
      traCodes 0 c c2 t h
  refine ⟨he.trans ((effFoldL_tra traCodes 0 c).trans (by rfl)), ?_⟩
  rw [ht, outFoldL_const, mapIdxFrom_constIdx]

theorem effFoldL_rate : ∀ (xs : List (String × Rat)) (s : Nat) (c : Core),
    effFoldL (fun _ _ c => rateEff (bump c)) s xs c =
      { c with
        stmtCount := c.stmtCount + xs.length,
        nextRateId := c.nextRateId + xs.length,
        taxRateIds := c.taxRateIds ++ List.range' c.nextRateId xs.length } := by
  intro xs
  induction xs with
  | nil => intro s c; simp [effFoldL]
  | cons x xs ih =>
    intro s c
    rw [effFoldL, ih]
    simp [rateEff, bump, List.range'_succ, Core.mk.injEq]
    omega

theorem phaseRates_char {env : Env} {c c2 : Core} {t : List Stmt}
    (h : phaseRates env c = .ok (c2, t)) :
    c2 = { c with
           stmtCount := c.stmtCount + 3,
           nextRateId := c.nextRateId + 3,
           taxRateIds := c.taxRateIds ++ List.range' c.nextRateId 3 }
    ∧ t = taxRatesData.map rateStmt := by
  obtain ⟨he, ht⟩ :=
    @plist_char _ (fun _ p => insertRate env p) (fun _ _ c => rateEff (bump c))
      (fun _ p _ => [rateStmt p]) (fun i x c c2 t h => emitmod_char h)
      taxRatesData 0 c c2 t h
  refine ⟨he.trans ((effFoldL_rate taxRatesData 0 c).trans (by rfl)), ?_⟩
  rw [ht, outFoldL_const, mapIdxFrom_constIdx]

/-! ### Choice-driven loops: TRA assignment, assessments, supplements, RRR -/

theorem assignTRA_char {env : Env} : ∀ (i b : Nat) (c c2 : Core) (t : List Stmt),
    assignTRA env i b c = .ok (c2, t) →
    c2 = assignStep env i b c ∧
    t = [assignStmt b (chooseD c.traIds (env.traIdx i))] := by
  intro i b c c2 t h
  unfold assignTRA pwith at h
  dsimp only at h
  cases hc : pyChoice c.traIds (env.traIdx i) with
  | none => rw [hc] at h; exact absurd h (by simp [praise])
  | some tid =>
    rw [hc] at h
    dsimp only at h
    obtain ⟨he, ht⟩ := emitmod_char h
    unfold assignStep
    rw [chooseD_eq hc]
    exact ⟨he, ht⟩

theorem effFoldL_assign (env : Env) : ∀ (xs : List Nat) (s : Nat) (c : Core),
    effFoldL (assignStep env) s xs c =
      { c with
        stmtCount := c.stmtCount + xs.length,
        traAssign := c.traAssign ++ choosePairs env.traIdx c.traIds s xs } := by
  intro xs
  induction xs with
  | nil => intro s c; simp [effFoldL, choosePairs]
  | cons x xs ih =>
    intro s c
    rw [effFoldL, ih]
    simp [assignStep, bump, choosePairs, Core.mk.injEq, List.append_assoc]
    omega

theorem outFoldL_assign (env : Env) : ∀ (xs : List Nat) (s : Nat) (c : Core),
    outFoldL (assignStep env)
      (fun i b c => [assignStmt b (chooseD c.traIds (env.traIdx i))]) s xs c
      = assignTrace env c.traIds s xs := by
  intro xs
  induction xs with
  | nil => intro s c; simp [outFoldL, assignTrace, chooseTrace]
  | cons x xs ih =>
    intro s c
    rw [outFoldL, ih]
    simp [assignTrace, chooseTrace, assignStep, bump]

theorem phaseAssign_char {env : Env} {c c2 : Core} {t : List Stmt}
    (h : phaseAssign env c = .ok (c2, t)) :
    c2 = { c with
           stmtCount := c.stmtCount + c.baunitIds.length,
           traAssign := c.traAssign ++
             choosePairs env.traIdx c.traIds 0 c.baunitIds }
    ∧ t = assignTrace env c.traIds 0 c.baunitIds := by
  unfold phaseAssign pwith at h
  dsimp only at h
  obtain ⟨he, ht⟩ :=
    @plist_char _ (assignTRA env) (assignStep env)
      (fun i b c => [assignStmt b (chooseD c.traIds (env.traIdx i))])
      (fun i b c c2 t h => assignTRA_char i b c c2 t h)
      c.baunitIds 0 c c2 t h
  exact ⟨he.trans (effFoldL_assign env c.baunitIds 0 c),
         ht.trans (outFoldL_assign env c.baunitIds 0 c)⟩

theorem insertAssess_char {env : Env} :
    ∀ (i b : Nat) (c c2 : Core) (t : List Stmt),
    insertAssess env i b c = .ok (c2, t) →
    c2 = assessStep env i b c ∧
    t = [assessStmt env i b (chooseD c.taxRateIds (env.rateIdx i))] := by
  intro i b c c2 t h
  unfold insertAssess pwith at h
  dsimp only at h
  cases hc : pyChoice c.taxRateIds (env.rateIdx i) with
  | none => rw [hc] at h; exact absurd h (by simp [praise])
  | some rid =>
    rw [hc] at h
    dsimp only at h
    obtain ⟨he, ht⟩ := emitmod_char h
    unfold assessStep
    rw [chooseD_eq hc]
    exact ⟨he, ht⟩

theorem effFoldL_assess (env : Env) : ∀ (xs : List Nat) (s : Nat) (c : Core),
    effFoldL (assessStep env) s xs c =
      { c with
        stmtCount := c.stmtCount + xs.length,
        assessRows := c.assessRows ++
          choosePairs env.rateIdx c.taxRateIds s xs } := by
  intro xs
  induction xs with
  | nil => intro s c; simp [effFoldL, choosePairs]
  | cons x xs ih =>
    intro s c
    rw [effFoldL, ih]
    simp [assessStep, bump, choosePairs, Core.mk.injEq, List.append_assoc]
    omega

theorem outFoldL_assess (env : Env) : ∀ (xs : List Nat) (s : Nat) (c : Core),
    outFoldL (assessStep env)
      (fun i b c => [assessStmt env i b (chooseD c.taxRateIds (env.rateIdx i))])
      s xs c = assessTrace env c.taxRateIds s xs := by
  intro xs
  induction xs with
  | nil => intro s c; simp [outFoldL, assessTrace, chooseTrace]
  | cons x xs ih =>
    intro s c
    rw [outFoldL, ih]
    simp [assessTrace, chooseTrace, assessStep, bump]

theorem phaseAssess_char {env : Env} {c c2 : Core} {t : List Stmt}
    (h : phaseAssess env c = .ok (c2, t)) :
    c2 = { c with
           stmtCount := c.stmtCount + c.baunitIds.length,
           assessRows := c.assessRows ++
             choosePairs env.rateIdx c.taxRateIds 0 c.baunitIds }
    ∧ t = assessTrace env c.taxRateIds 0 c.baunitIds := by
  unfold phaseAssess pwith at h
  dsimp only at h
  obtain ⟨he, ht⟩ :=
    @plist_char _ (insertAssess env) (assessStep env)
      (fun i b c => [assessStmt env i b (chooseD c.taxRateIds (env.rateIdx i))])
      (fun i b c c2 t h => insertAssess_char i b c c2 t h)
      c.baunitIds 0 c c2 t h
  exact ⟨he.trans (effFoldL_assess env c.baunitIds 0 c),
         ht.trans (outFoldL_assess env c.baunitIds 0 c)⟩

theorem insertSupp_char {env : Env} :
    ∀ (i b : Nat) (c c2 : Core) (t : List Stmt),
    insertSupp env i b c = .ok (c2, t) →
    c2 = suppStep env i b c ∧
    t = [suppStmt env i b (chooseD c.taxRateIds (env.suppRateIdx i))] := by
  intro i b c c2 t h
  unfold insertSupp pwith at h
  dsimp only at h
  cases hc : pyChoice c.taxRateIds (env.suppRateIdx i) with
  | none => rw [hc] at h; exact absurd h (by simp [praise])
  | some rid =>
    rw [hc] at h
    dsimp only at h
    obtain ⟨he, ht⟩ := emitmod_char h
    unfold suppStep
    rw [chooseD_eq hc]
    exact ⟨he, ht⟩

theorem effFoldL_supp (env : Env) : ∀ (xs : List Nat) (s : Nat) (c : Core),
    effFoldL (suppStep env) s xs c =
      { c with
        stmtCount := c.stmtCount + xs.length,
        suppRows := c.suppRows ++
          choosePairs env.suppRateIdx c.taxRateIds s xs } := by
  intro xs
  induction xs with
  | nil => intro s c; simp [effFoldL, choosePairs]
  | cons x xs ih =>
    intro s c
    rw [effFoldL, ih]
    simp [suppStep, bump, choosePairs, Core.mk.injEq, List.append_assoc]
    omega

theorem outFoldL_supp (env : Env) : ∀ (xs : List Nat) (s : Nat) (c : Core),
    outFoldL (suppStep env)
      (fun i b c =>
        [suppStmt env i b (chooseD c.taxRateIds (env.suppRateIdx i))]) s xs c
      = suppTrace env c.taxRateIds s xs := by
  intro xs
  induction xs with
  | nil => intro s c; simp [outFoldL, suppTrace, chooseTrace]
  | cons x xs ih =>
    intro s c
    rw [outFoldL, ih]
    simp [suppTrace, chooseTrace, suppStep, bump]

theorem phaseSupp_char {env : Env} {c c2 : Core} {t : List Stmt}
    (h : phaseSupp env c = .ok (c2, t)) :
    ∃ S, pySample env.suppSel 0 c.baunitIds
        (min (c.baunitIds.length / 5) 10) = some S ∧
      c2 = { c with
             stmtCount := c.stmtCount + S.length,
             suppRows := c.suppRows ++
               choosePairs env.suppRateIdx c.taxRateIds 0 S }
      ∧ t = suppTrace env c.taxRateIds 0 S := by
  unfold phaseSupp pwith at h
  dsimp only at h
  cases hs : pySample env.suppSel 0 c.baunitIds
      (min (c.baunitIds.length / 5) 10) with
  | none => rw [hs] at h; exact absurd h (by simp [praise])
  | some S =>
    rw [hs] at h
    dsimp only at h
    obtain ⟨he, ht⟩ :=
      @plist_char _ (insertSupp env) (suppStep env)
        (fun i b c =>
          [suppStmt env i b (chooseD c.taxRateIds (env.suppRateIdx i))])
        (fun i b c c2 t h => insertSupp_char i b c c2 t h)
        S 0 c c2 t h
    exact ⟨S, rfl, he.trans (effFoldL_supp env S 0 c),
           ht.trans (outFoldL_supp env S 0 c)⟩

theorem insertRRR_char {env : Env} :
    ∀ (i b : Nat) (c c2 : Core) (t : List Stmt),
    insertRRR env i b c = .ok (c2, t) →
    c2 = rrrStep env i b c ∧
    t = [rrrStmt env i b (chooseD c.partyIds (env.rrrPartyIdx i))] := by
  intro i b c c2 t h
  unfold insertRRR pwith at h
  dsimp only at h
  cases hc : pyChoice c.partyIds (env.rrrPartyIdx i) with
  | none => rw [hc] at h; exact absurd h (by simp [praise])
  | some pid =>
    rw [hc] at h
    dsimp only at h
    obtain ⟨he, ht⟩ := emitmod_char h
    unfold rrrStep
    rw [chooseD_eq hc]
    exact ⟨he, ht⟩

theorem effFoldL_rrr (env : Env) : ∀ (xs : List Nat) (s : Nat) (c : Core),
    effFoldL (rrrStep env) s xs c =
      { c with
        stmtCount := c.stmtCount + xs.length,
        rrrRows := c.rrrRows ++
          choosePairs env.rrrPartyIdx c.partyIds s xs } := by
  intro xs
  induction xs with
  | nil => intro s c; simp [effFoldL, choosePairs]
  | cons x xs ih =>
    intro s c
    rw [effFoldL, ih]
    simp [rrrStep, bump, choosePairs, Core.mk.injEq, List.append_assoc]
    omega

theorem outFoldL_rrr (env : Env) : ∀ (xs : List Nat) (s : Nat) (c : Core),
    outFoldL (rrrStep env)
      (fun i b c => [rrrStmt env i b (chooseD c.partyIds (env.rrrPartyIdx i))])
      s xs c = rrrTrace env c.partyIds s xs := by
  intro xs
  induction xs with
  | nil => intro s c; simp [outFoldL, rrrTrace, chooseTrace]
  | cons x xs ih =>
    intro s c
    rw [outFoldL, ih]
    simp [rrrTrace, chooseTrace, rrrStep, bump]

theorem phaseRRR_char {env : Env} {c c2 : Core} {t : List Stmt}
    (h : phaseRRR env c = .ok (c2, t)) :
    c2 = { c with
           stmtCount := c.stmtCount + c.baunitIds.length,
           rrrRows := c.rrrRows ++
             choosePairs env.rrrPartyIdx c.partyIds 0 c.baunitIds }
    ∧ t = rrrTrace env c.partyIds 0 c.baunitIds := by
  unfold phaseRRR pwith at h
  dsimp only at h
  obtain ⟨he, ht⟩ :=
    @plist_char _ (insertRRR env) (rrrStep env)
      (fun i b c => [rrrStmt env i b (chooseD c.partyIds (env.rrrPartyIdx i))])
      (fun i b c c2 t h => insertRRR_char i b c c2 t h)
      c.baunitIds 0 c c2 t h
  exact ⟨he.trans (effFoldL_rrr env c.baunitIds 0 c),
         ht.trans (outFoldL_rrr env c.baunitIds 0 c)⟩

theorem phaseRRR_ne {env : Env} {c c2 : Core} {t : List Stmt}
    (h : phaseRRR env c = .ok (c2, t)) (hb : c.baunitIds ≠ []) :
    c.partyIds ≠ [] := by
  unfold phaseRRR pwith at h
  dsimp only at h
  cases hbs : c.baunitIds with
  | nil => exact absurd hbs hb
  | cons b bs =>
    rw [hbs] at h
    unfold plist at h
    obtain ⟨c1, t1, t2, hp, hq, hr⟩ := pseq_ok h
    unfold insertRRR pwith at hp
    dsimp only at hp
    cases hc : pyChoice c.partyIds (env.rrrPartyIdx 0) with
    | none => rw [hc] at hp; exact absurd hp (by simp [praise])
    | some pid => exact pyChoice_ne_nil hc

/-! ### Bill, payment and paid-flag loops -/

theorem insertBill_char {env : Env} : ∀ (i : Nat) (c c2 : Core) (t : List Stmt),
    insertBill env i c = .ok (c2, t) →
    c2 = billStep env i c ∧
    t = [billStmt env i (chooseD c.baunitIds (env.billBuidIdx i))
          (chooseD c.partyIds (env.billPartyIdx i))] := by
  intro i c c2 t h
  unfold insertBill pwith at h
  dsimp only at h
  cases hb : pyChoice c.baunitIds (env.billBuidIdx i) with
  | none => rw [hb] at h; exact absurd h (by simp [praise])
  | some buid =>
    rw [hb] at h
    dsimp only at h
    cases hp : pyChoice c.partyIds (env.billPartyIdx i) with
    | none => rw [hp] at h; exact absurd h (by simp [praise])
    | some pid =>
      rw [hp] at h
      dsimp only at h
      obtain ⟨he, ht⟩ := emitmod_char h
      unfold billStep
      rw [chooseD_eq hb, chooseD_eq hp]
      exact ⟨he, ht⟩

theorem effFold_bill (env : Env) : ∀ (k s : Nat) (c : Core),
    effFold (billStep env) s k c =
      { c with
        stmtCount := c.stmtCount + k,
        nextBillUid := c.nextBillUid + k,
        insertedBills := c.insertedBills ++ billKeys env s c.nextBillUid k,
        bills := c.bills ++
          billRowsL env c.baunitIds c.partyIds s c.nextBillUid k } := by
  intro k
  induction k with
  | zero => intro s c; simp [effFold, billKeys, billRowsL]
  | succ k ih =>
    intro s c
    rw [effFold, ih]
    simp [billStep, bump, billKeys, billRowsL, Core.mk.injEq,
      List.append_assoc]
    omega

theorem outFold_bill (env : Env) : ∀ (k s : Nat) (c : Core),
    outFold (billStep env)
      (fun i c => [billStmt env i (chooseD c.baunitIds (env.billBuidIdx i))
        (chooseD c.partyIds (env.billPartyIdx i))]) s k c
      = billTr env c.baunitIds c.partyIds s k := by
  intro k
  induction k with
  | zero => intro s c; simp [outFold, billTr]
  | succ k ih =>
    intro s c
    rw [outFold, ih]
    simp [billTr, billStep, bump]

theorem phaseBills_char {env : Env} {k : Nat} {c c2 : Core} {t : List Stmt}
    (h : phaseBills env k c = .ok (c2, t)) :
    c2 = { c with
           stmtCount := c.stmtCount + k,
           nextBillUid := c.nextBillUid + k,
           insertedBills := c.insertedBills ++ billKeys env 0 c.nextBillUid k,
           bills := c.bills ++
             billRowsL env c.baunitIds c.partyIds 0 c.nextBillUid k }
    ∧ t = billTr env c.baunitIds c.partyIds 0 k := by
  obtain ⟨he, ht⟩ :=
    @prange_char (insertBill env) (billStep env)
      (fun i c => [billStmt env i (chooseD c.baunitIds (env.billBuidIdx i))
        (chooseD c.partyIds (env.billPartyIdx i))])
      (fun i c c2 t h => insertBill_char i c c2 t h)
      k 0 c c2 t h
  exact ⟨he.trans (effFold_bill env k 0 c), ht.trans (outFold_bill env k 0 c)⟩

theorem phaseBills_ne {env : Env} {k : Nat} {c c2 : Core} {t : List Stmt}
    (h : phaseBills env k c = .ok (c2, t)) (hk : 1 ≤ k) :
    c.baunitIds ≠ [] ∧ c.partyIds ≠ [] := by
  obtain ⟨k2, rfl⟩ : ∃ k2, k = k2 + 1 := ⟨k - 1, by omega⟩
  unfold phaseBills prange at h
  obtain ⟨c1, t1, t2, hp, hq, hr⟩ := pseq_ok h
  unfold insertBill pwith at hp
  dsimp only at hp
  cases hb : pyChoice c.baunitIds (env.billBuidIdx 0) with
  | none => rw [hb] at hp; exact absurd hp (by simp [praise])
  | some buid =>
    rw [hb] at hp
    dsimp only at hp
    cases hpp : pyChoice c.partyIds (env.billPartyIdx 0) with
    | none => rw [hpp] at hp; exact absurd hp (by simp [praise])
    | some pid => exact ⟨pyChoice_ne_nil hb, pyChoice_ne_nil hpp⟩

theorem effFold_payInner (env : Env) (i : Nat) (b : Int × Nat) :
    ∀ (k s : Nat) (c : Core),
      effFold (fun j c => payStep env i j b c) s k c =
        { c with
          stmtCount := c.stmtCount + k,
          payments := c.payments ++ (List.range' s k).map (fun j =>
            ⟨env.payDate i j, b.1, b.2, pyUniform 50 1000 (env.payAmtU i j)⟩) }
      := by
  intro k
  induction k with
  | zero => intro s c; simp [effFold]
  | succ k ih =>
    intro s c
    rw [effFold, ih]
    simp [payStep, bump, List.range'_succ, Core.mk.injEq, List.append_assoc]
    omega

theorem payForBill_char {env : Env} {i : Nat} {b : Int × Nat} {c c2 : Core}
    {t : List Stmt} (h : payForBill env i b c = .ok (c2, t)) :
    c2 = { c with
           stmtCount := c.stmtCount + pyRandint 1 2 (env.payCntU i),
           payments := c.payments ++ payRowsFor env i b }
    ∧ t = (List.range (pyRandint 1 2 (env.payCntU i))).map
        (fun j => payStmt env i j b) := by
  obtain ⟨he, ht⟩ :=
    @prange_char (fun j => payOnce env i j b) (fun j c => payStep env i j b c)
      (fun j _ => [payStmt env i j b]) (fun j c c2 t h => emitmod_char h)
      (pyRandint 1 2 (env.payCntU i)) 0 c c2 t h
  constructor
  · rw [he, effFold_payInner]
    unfold payRowsFor
    rw [List.range_eq_range']
  · rw [ht, outFold_const, List.range_eq_range']

theorem effFoldL_pays (env : Env) : ∀ (xs : List (Int × Nat)) (s : Nat)
    (c : Core),
    effFoldL (fun i b c =>
      { c with
        stmtCount := c.stmtCount + pyRandint 1 2 (env.payCntU i),
        payments := c.payments ++ payRowsFor env i b }) s xs c =
      { c with
        stmtCount := c.stmtCount + (payTr env s xs).length,
        payments := c.payments ++ payRowsL env s xs } := by
  intro xs
  induction xs with
  | nil => intro s c; simp [effFoldL, payTr, payRowsL]
  | cons x xs ih =>
    intro s c
    rw [effFoldL, ih]
    simp [payTr, payRowsL, Core.mk.injEq, List.append_assoc]
    omega

theorem outFoldL_pays (env : Env) : ∀ (xs : List (Int × Nat)) (s : Nat)
    (c : Core),
    outFoldL (fun i b c =>
      { c with
        stmtCount := c.stmtCount + pyRandint 1 2 (env.payCntU i),
        payments := c.payments ++ payRowsFor env i b })
      (fun i b _ => (List.range (pyRandint 1 2 (env.payCntU i))).map
        (fun j => payStmt env i j b)) s xs c = payTr env s xs := by
  intro xs
  induction xs with
  | nil => intro s c; simp [outFoldL, payTr]
  | cons x xs ih =>
    intro s c
    rw [outFoldL, ih]
    simp [payTr]

theorem phasePays_char {env : Env} {c c2 : Core} {t : List Stmt}
    (h : phasePays env c = .ok (c2, t)) :
    ∃ H, pySample env.paySel 0 c.insertedBills
        (c.insertedBills.length / 2) = some H ∧
      c2 = { c with
             stmtCount := c.stmtCount + (payTr env 0 H).length,
             payments := c.payments ++ payRowsL env 0 H }
      ∧ t = payTr env 0 H := by
  unfold phasePays pwith at h
  dsimp only at h
  cases hs : pySample env.paySel 0 c.insertedBills
      (c.insertedBills.length / 2) with
  | none => rw [hs] at h; exact absurd h (by simp [praise])
  | some H =>
    rw [hs] at h
    dsimp only at h
    obtain ⟨he, ht⟩ :=
      @plist_char _ (payForBill env)
        (fun i b c =>
          { c with
            stmtCount := c.stmtCount + pyRandint 1 2 (env.payCntU i),
            payments := c.payments ++ payRowsFor env i b })
        (fun i b _ => (List.range (pyRandint 1 2 (env.payCntU i))).map
          (fun j => payStmt env i j b))
        (fun i b c c2 t h => payForBill_char h)
        H 0 c c2 t h
    exact ⟨H, rfl, he.trans (effFoldL_pays env H 0 c),
           ht.trans (outFoldL_pays env H 0 c)⟩

theorem flipPaid_char {env : Env} :
    ∀ (i : Nat) (b : Int × Nat) (c c2 : Core) (t : List Stmt),
    flipPaid env i b c = .ok (c2, t) →
    c2 = flipStep env i b c ∧
    t = if env.paidU i < mkRat 1 2 then [paidStmt b] else [] := by
  intro i b c c2 t h
  unfold flipPaid at h
  split at h <;> rename_i hcond
  · obtain ⟨he, ht⟩ := emitmod_char h
    unfold flipStep
    rw [if_pos hcond, if_pos hcond]
    exact ⟨he, ht⟩
  · unfold pskip at h
    cases h
    unfold flipStep
    rw [if_neg hcond, if_neg hcond]
    exact ⟨rfl, rfl⟩

theorem effFoldL_paid (env : Env) : ∀ (xs : List (Int × Nat)) (s : Nat)
    (c : Core),
    effFoldL (flipStep env) s xs c =
      { c with
        stmtCount := c.stmtCount + (paidTr env s xs).length,
        bills := paidFold env s xs c.bills } := by
  intro xs
  induction xs with
  | nil => intro s c; simp [effFoldL, paidTr, paidFold]
  | cons x xs ih =>
    intro s c
    rw [effFoldL, ih]
    by_cases hcond : env.paidU s < mkRat 1 2
    · simp only [flipStep, paidTr, paidFold, if_pos hcond, setPaid, bump]
      simp [Core.mk.injEq]
      omega
    · simp only [flipStep, paidTr, paidFold, if_neg hcond]
      simp [Core.mk.injEq]

theorem outFoldL_paid (env : Env) : ∀ (xs : List (Int × Nat)) (s : Nat)
    (c : Core),
    outFoldL (flipStep env)
      (fun i b _ => if env.paidU i < mkRat 1 2 then [paidStmt b] else []) s xs c
      = paidTr env s xs := by
  intro xs
  induction xs with
  | nil => intro s c; simp [outFoldL, paidTr]
  | cons x xs ih =>
    intro s c
    rw [outFoldL, ih]
    simp [paidTr]

theorem phasePaid_char {env : Env} {c c2 : Core} {t : List Stmt}
    (h : phasePaid env c = .ok (c2, t)) :
    c2 = { c with
           stmtCount := c.stmtCount + (paidTr env 0 c.insertedBills).length,
           bills := paidFold env 0 c.insertedBills c.bills }
    ∧ t = paidTr env 0 c.insertedBills := by
  unfold phasePaid pwith at h
  dsimp only at h
  obtain ⟨he, ht⟩ :=
    @plist_char _ (flipPaid env) (flipStep env)
      (fun i b _ => if env.paidU i < mkRat 1 2 then [paidStmt b] else [])
      (fun i b c c2 t h => flipPaid_char i b c c2 t h)
      c.insertedBills 0 c c2 t h
  exact ⟨he.trans (effFoldL_paid env c.insertedBills 0 c),
         ht.trans (outFoldL_paid env c.insertedBills 0 c)⟩

/-! ## Pure lemmas about the closed forms -/

theorem pseq_ok2 {p q : Phase} {c c2 : Core} {t : List Stmt}
    (h : pseq p q c = .ok (c2, t)) :
    ∃ c1 t1 t2, p c = .ok (c1, t1) ∧ q c1 = .ok (c2, t2) ∧ t = t1 ++ t2 := by
  obtain ⟨c1, t1, t2, hp, hq, hr⟩ := pseq_ok h
  exact ⟨c1, t1, t2, hp, hq, hr⟩

theorem billKeys_length (env : Env) :
    ∀ (k i u : Nat), (billKeys env i u k).length = k := by
  intro k
  induction k with
  | zero => intro i u; rfl
  | succ k ih => intro i u; simp [billKeys, ih]

theorem billKeys_map_snd (env : Env) :
    ∀ (k i u : Nat), (billKeys env i u k).map Prod.snd = List.range' u k := by
  intro k
  induction k with
  | zero => intro i u; rfl
  | succ k ih => intro i u; simp [billKeys, ih, List.range'_succ]

theorem billKeys_nodup (env : Env) (k i u : Nat) :
    (billKeys env i u k).Nodup := by
  refine List.Nodup.of_map Prod.snd ?_
  rw [billKeys_map_snd]
  exact List.nodup_range' u k

theorem billRowsL_length (env : Env) (B P : List Nat) :
    ∀ (k i u : Nat), (billRowsL env B P i u k).length = k := by
  intro k
  induction k with
  | zero => intro i u; rfl
  | succ k ih => intro i u; simp [billRowsL, ih]

theorem billRowsL_map_key (env : Env) (B P : List Nat) :
    ∀ (k i u : Nat),
      (billRowsL env B P i u k).map rowKey = billKeys env i u k := by
  intro k
  induction k with
  | zero => intro i u; rfl
  | succ k ih => intro i u; simp [billRowsL, billKeys, ih, rowKey, mkBillRow]

theorem billRowsL_mem (env : Env) (B P : List Nat) :
    ∀ (k i u : Nat) (r : BillRow), r ∈ billRowsL env B P i u k →
      r.is_paid = false ∧ r.due_date = r.bill_date + 30 ∧
      r.supplemental_id = none ∧
      (B ≠ [] → r.ba_unit_id ∈ B) ∧ (P ≠ [] → r.party_id ∈ P) := by
  intro k
  induction k with
  | zero => intro i u r hr; cases hr
  | succ k ih =>
    intro i u r hr
    rcases List.mem_cons.mp hr with h1 | h2
    · subst h1
      refine ⟨rfl, rfl, rfl, fun hB => ?_, fun hP => ?_⟩
      · exact chooseD_mem hB _
      · exact chooseD_mem hP _
    · exact ih _ _ r h2

theorem choosePairs_length {f : Nat → Nat} {R : List Nat} :
    ∀ (xs : List Nat) (s : Nat), (choosePairs f R s xs).length = xs.length := by
  intro xs
  induction xs with
  | nil => intro s; rfl
  | cons x xs ih => intro s; simp [choosePairs, ih]

theorem choosePairs_mem {f : Nat → Nat} {R : List Nat} :
    ∀ (xs : List Nat) (s : Nat) (p : Nat × Nat), p ∈ choosePairs f R s xs →
      p.1 ∈ xs ∧ (R ≠ [] → p.2 ∈ R) := by
  intro xs
  induction xs with
  | nil => intro s p hp; cases hp
  | cons x xs ih =>
    intro s p hp
    rcases List.mem_cons.mp hp with h1 | h2
    · subst h1
      exact ⟨List.mem_cons_self x xs, fun hR => chooseD_mem hR _⟩
    · obtain ⟨h1, h2⟩ := ih (s + 1) p h2
      exact ⟨List.mem_cons_of_mem x h1, h2⟩

theorem chooseTrace_mem {mk : Nat → Nat → Nat → Stmt} {f : Nat → Nat}
    {R : List Nat} :
    ∀ (xs : List Nat) (s : Nat) (x : Stmt), x ∈ chooseTrace mk f R s xs →
      ∃ i b, b ∈ xs ∧ x = mk i b (chooseD R (f i)) := by
  intro xs
  induction xs with
  | nil => intro s x hx; cases hx
  | cons y xs ih =>
    intro s x hx
    rcases List.mem_cons.mp hx with h1 | h2
    · exact ⟨s, y, List.mem_cons_self y xs, h1⟩
    · obtain ⟨i, b, hb, he⟩ := ih (s + 1) x h2
      exact ⟨i, b, List.mem_cons_of_mem y hb, he⟩

theorem chooseTrace_length {mk : Nat → Nat → Nat → Stmt} {f : Nat → Nat}
    {R : List Nat} :
    ∀ (xs : List Nat) (s : Nat), (chooseTrace mk f R s xs).length = xs.length := by
  intro xs
  induction xs with
  | nil => intro s; rfl
  | cons x xs ih => intro s; simp [chooseTrace, ih]

theorem mapIdxFrom_mem {g : Nat → α → β} :
    ∀ (xs : List α) (s : Nat) (y : β), y ∈ mapIdxFrom g s xs →
      ∃ i x, x ∈ xs ∧ y = g i x := by
  intro xs
  induction xs with
  | nil => intro s y hy; cases hy
  | cons x xs ih =>
    intro s y hy
    rcases List.mem_cons.mp hy with h1 | h2
    · exact ⟨s, x, List.mem_cons_self x xs, h1⟩
    · obtain ⟨i, z, hz, he⟩ := ih (s + 1) y h2
      exact ⟨i, z, List.mem_cons_of_mem x hz, he⟩

theorem mapIdxFrom_length {g : Nat → α → β} :
    ∀ (xs : List α) (s : Nat), (mapIdxFrom g s xs).length = xs.length := by
  intro xs
  induction xs with
  | nil => intro s; rfl
  | cons x xs ih => intro s; simp [mapIdxFrom, ih]

theorem payRowsL_mem (env : Env) :
    ∀ (xs : List (Int × Nat)) (s : Nat) (p : PayRow),
      p ∈ payRowsL env s xs → (p.bill_date, p.bill_uid) ∈ xs := by
  intro xs
  induction xs with
  | nil => intro s p hp; cases hp
  | cons b bs ih =>
    intro s p hp
    rcases List.mem_append.mp hp with h1 | h2
    · unfold payRowsFor at h1
      obtain ⟨j, hj, he⟩ := List.mem_map.mp h1
      subst he
      exact List.mem_cons_self b bs
    · exact List.mem_cons_of_mem b (ih (s + 1) p h2)

theorem payCount_append (x : Int × Nat) (l1 l2 : List PayRow) :
    payCount x (l1 ++ l2) = payCount x l1 + payCount x l2 := by
  unfold payCount
  rw [List.filter_append, List.length_append]

theorem payCount_payRowsFor (env : Env) (i : Nat) (b x : Int × Nat) :
    payCount x (payRowsFor env i b) =
      if b = x then pyRandint 1 2 (env.payCntU i) else 0 := by
  unfold payCount payRowsFor
  by_cases hbx : b = x
  · subst hbx
    rw [if_pos rfl]
    rw [List.filter_eq_self.mpr]
    · simp
    · intro a ha
      obtain ⟨j, hj, he⟩ := List.mem_map.mp ha
      subst he
      simp
  · rw [if_neg hbx]
    rw [List.filter_eq_nil_iff.mpr]
    · rfl
    · intro a ha
      obtain ⟨j, hj, he⟩ := List.mem_map.mp ha
      subst he
      simp only [Bool.and_eq_true, decide_eq_true_eq, not_and]
      intro h1 h2
      exact hbx (Prod.ext h1 h2)

theorem payRowsL_count (env : Env) :
    ∀ (xs : List (Int × Nat)) (s : Nat) (x : Int × Nat), xs.Nodup →
      (x ∈ xs → 1 ≤ payCount x (payRowsL env s xs) ∧
        payCount x (payRowsL env s xs) ≤ 2) ∧
      (x ∉ xs → payCount x (payRowsL env s xs) = 0) := by
  intro xs
  induction xs with
  | nil =>
    intro s x _
    refine ⟨fun hx => absurd hx (List.not_mem_nil x), fun _ => ?_⟩
    simp [payRowsL, payCount]
  | cons b bs ih =>
    intro s x hnd
    obtain ⟨hb, hnd2⟩ := List.nodup_cons.mp hnd
    have hrec := ih (s + 1) x hnd2
    have hcnt : payCount x (payRowsL env s (b :: bs)) =
        payCount x (payRowsFor env s b) +
        payCount x (payRowsL env (s + 1) bs) := by
      rw [show payRowsL env s (b :: bs) =
          payRowsFor env s b ++ payRowsL env (s + 1) bs from rfl]
      exact payCount_append x _ _
    constructor
    · intro hx
      rcases List.mem_cons.mp hx with h1 | h2
      · subst h1
        rw [hcnt, payCount_payRowsFor, if_pos rfl, hrec.2 hb]
        have := pyRandint_one_two (env.payCntU s)
        omega
      · have hbx : b ≠ x := fun he => hb (he ▸ h2)
        rw [hcnt, payCount_payRowsFor, if_neg hbx]
        have := hrec.1 h2
        omega
    · intro hx
      have hbx : b ≠ x := fun he => hx (he ▸ List.mem_cons_self b bs)
      have hxbs : x ∉ bs := fun hm => hx (List.mem_cons_of_mem b hm)
      rw [hcnt, payCount_payRowsFor, if_neg hbx, hrec.2 hxbs]

theorem paidApply_not_mem {b : Int × Nat} {rs : List BillRow}
    (h : b ∉ rs.map rowKey) : paidApply b rs = rs := by
  induction rs with
  | nil => rfl
  | cons r rs ih =>
    simp only [List.map_cons, List.mem_cons, not_or] at h
    unfold paidApply
    simp only [List.map_cons]
    rw [if_neg, ← paidApply]
    · rw [ih h.2]
    · intro hc
      exact h.1 (by simp [rowKey, Prod.ext_iff, hc.1, hc.2])

theorem paidApply_cons_self {r : BillRow} {rs : List BillRow} :
    paidApply (rowKey r) (r :: rs) =
      { r with is_paid := true } :: paidApply (rowKey r) rs := by
  unfold paidApply
  simp [rowKey]

theorem paidApply_cons_ne {b : Int × Nat} {r : BillRow} {rs : List BillRow}
    (h : b ≠ rowKey r) :
    paidApply b (r :: rs) = r :: paidApply b rs := by
  unfold paidApply
  simp only [List.map_cons]
  rw [if_neg]
  intro hc
  exact h (by simp [rowKey, Prod.ext_iff, hc.1, hc.2])

theorem paidApply_map_key {b : Int × Nat} {rs : List BillRow} :
    (paidApply b rs).map rowKey = rs.map rowKey := by
  induction rs with
  | nil => rfl
  | cons r rs ih =>
    unfold paidApply at ih ⊢
    simp only [List.map_cons]
    split
    · simp [rowKey, ih]
    · simp [rowKey, ih]

theorem paidFold_skip (env : Env) :
    ∀ (ks : List (Int × Nat)) (s : Nat) (r : BillRow) (rs : List BillRow),
      rowKey r ∉ ks →
      paidFold env s ks (r :: rs) = r :: paidFold env s ks rs := by
  intro ks
  induction ks with
  | nil => intro s r rs _; rfl
  | cons k ks ih =>
    intro s r rs hk
    simp only [List.mem_cons, not_or] at hk
    unfold paidFold
    by_cases hc : env.paidU s < mkRat 1 2
    · rw [if_pos hc, if_pos hc, paidApply_cons_ne (fun he => hk.1 he.symm),
        ih (s + 1) r _ hk.2]
    · rw [if_neg hc, if_neg hc, ih (s + 1) r rs hk.2]

theorem paidFold_eq_flipAll (env : Env) :
    ∀ (rs : List BillRow) (ks : List (Int × Nat)) (s : Nat),
      rs.map rowKey = ks → ks.Nodup →
      paidFold env s ks rs = flipAll env s rs := by
  intro rs
  induction rs with
  | nil =>
    intro ks s hk _
    subst hk
    rfl
  | cons r rs ih =>
    intro ks s hk hnd
    rw [List.map_cons] at hk
    subst hk
    obtain ⟨hk1, hnd2⟩ := List.nodup_cons.mp hnd
    rw [show paidFold env s (rowKey r :: List.map rowKey rs) (r :: rs) =
        paidFold env (s + 1) (List.map rowKey rs)
          (if env.paidU s < mkRat 1 2 then paidApply (rowKey r) (r :: rs)
           else r :: rs) from rfl]
    rw [show flipAll env s (r :: rs) =
        (if env.paidU s < mkRat 1 2 then { r with is_paid := true } else r)
          :: flipAll env (s + 1) rs from rfl]
    by_cases hc : env.paidU s < mkRat 1 2
    · rw [if_pos hc, if_pos hc, paidApply_cons_self, paidApply_not_mem hk1]
      rw [paidFold_skip env _ _ _ _ (by simpa [rowKey] using hk1)]
      rw [ih _ (s + 1) rfl hnd2]
    · rw [if_neg hc, if_neg hc]
      rw [paidFold_skip env _ _ _ _ hk1, ih _ (s + 1) rfl hnd2]

theorem flipAll_length (env : Env) :
    ∀ (rs : List BillRow) (s : Nat), (flipAll env s rs).length = rs.length := by
  intro rs
  induction rs with
  | nil => intro s; rfl
  | cons r rs ih => intro s; simp [flipAll, ih]

theorem flipAll_getElem? (env : Env) :
    ∀ (rs : List BillRow) (s i : Nat),
      (flipAll env s rs)[i]? = (rs[i]?).map (fun r =>
        if env.paidU (s + i) < mkRat 1 2 then { r with is_paid := true } else r)
      := by
  intro rs
  induction rs with
  | nil => intro s i; rfl
  | cons r rs ih =>
    intro s i
    cases i with
    | zero => simp [flipAll]
    | succ i =>
      simp only [flipAll, List.getElem?_cons_succ, ih (s + 1) i]
      have : s + 1 + i = s + (i + 1) := by omega
      rw [this]

theorem flipAll_mem (env : Env) :
    ∀ (rs : List BillRow) (s : Nat) (r : BillRow), r ∈ flipAll env s rs →
      ∃ r0 ∈ rs, r = r0 ∨ r = { r0 with is_paid := true } := by
  intro rs
  induction rs with
  | nil => intro s r hr; cases hr
  | cons r0 rs ih =>
    intro s r hr
    rcases List.mem_cons.mp hr with h1 | h2
    · refine ⟨r0, List.mem_cons_self r0 rs, ?_⟩
      by_cases hc : env.paidU s < mkRat 1 2
      · right; rw [h1, if_pos hc]
      · left; rw [h1, if_neg hc]
    · obtain ⟨r1, hr1, he⟩ := ih (s + 1) r h2
      exact ⟨r1, List.mem_cons_of_mem r0 hr1, he⟩

/-! ## Whole-run characterization -/

theorem range'_one_three : List.range' 1 3 = [1, 2, 3] := rfl

/-- A successful `seeder.py` run, fully characterized: the sampled subsets
exist, every captured list and table equals its closed form, the success
side conditions hold, and the trace is the concatenation of the ten phase
traces. -/
theorem runS_char {env : Env} {N M K : Nat} {C : Core} {t : List Stmt}
    (h : runS env N M K = .ok (C, t)) :
    ∃ S H,
      pySample env.suppSel 0 (List.range' 1 M) (min (M / 5) 10) = some S ∧
      pySample env.paySel 0 (billKeys env 0 1 K) (K / 2) = some H ∧
      C.partyIds = List.range' 1 N ∧
      C.spatialIds = List.range' 1 M ∧
      C.baunitIds = List.range' 1 M ∧
      C.traIds = [1, 2, 3] ∧
      C.taxRateIds = [1, 2, 3] ∧
      C.traAssign = choosePairs env.traIdx [1, 2, 3] 0 (List.range' 1 M) ∧
      C.assessRows = choosePairs env.rateIdx [1, 2, 3] 0 (List.range' 1 M) ∧
      C.suppRows = choosePairs env.suppRateIdx [1, 2, 3] 0 S ∧
      C.rrrRows = choosePairs env.rrrPartyIdx (List.range' 1 N) 0
        (List.range' 1 M) ∧
      C.insertedBills = billKeys env 0 1 K ∧
      C.bills = paidFold env 0 (billKeys env 0 1 K)
        (billRowsL env (List.range' 1 M) (List.range' 1 N) 0 1 K) ∧
      C.payments = payRowsL env 0 H ∧
      (1 ≤ K → M ≠ 0 ∧ N ≠ 0) ∧
      (M ≠ 0 → N ≠ 0) ∧
      t = (List.range' 0 N).map (partyStmtS env) ++
        ((List.range' 0 M).map (spatialStmtS env) ++
        (mapIdxFrom (baunitStmtS env) 0 (List.range' 1 M) ++
        (traCodes.map traStmt ++
        (taxRatesData.map rateStmt ++
        (assignTrace env [1, 2, 3] 0 (List.range' 1 M) ++
        (assessTrace env [1, 2, 3] 0 (List.range' 1 M) ++
        (suppTrace env [1, 2, 3] 0 S ++
        (rrrTrace env (List.range' 1 N) 0 (List.range' 1 M) ++
        (billTr env (List.range' 1 M) (List.range' 1 N) 0 K ++
        (payTr env 0 H ++
        paidTr env 0 (billKeys env 0 1 K))))))))))) := by
  unfold runS seedPhasesS phasesTail at h
  obtain ⟨c1, t1, r1, h1, h, e0⟩ := pseq_ok2 h
  obtain ⟨c2, t2, r2, h2, h, e1⟩ := pseq_ok2 h
  obtain ⟨c3, t3, r3, h3, h, e2⟩ := pseq_ok2 h
  obtain ⟨c4, t4, r4, h4, h, e3⟩ := pseq_ok2 h
  obtain ⟨c5, t5, r5, h5, h, e4⟩ := pseq_ok2 h
  obtain ⟨c6, t6, r6, h6, h, e5⟩ := pseq_ok2 h
  obtain ⟨c7, t7, r7, h7, h, e6⟩ := pseq_ok2 h
  obtain ⟨c8, t8, r8, h8, h, e7⟩ := pseq_ok2 h
  obtain ⟨c9, t9, r9, h9, h, e8⟩ := pseq_ok2 h
  obtain ⟨c10, t10, r10, h10, h, e9⟩ := pseq_ok2 h
  obtain ⟨c11, t11, t12, h11, h12, e10⟩ := pseq_ok2 h
  obtain ⟨hc1, ht1⟩ := phasePartiesS_char h1
  subst hc1
  obtain ⟨hc2, ht2⟩ := phaseSpatialS_char h2
  subst hc2
  obtain ⟨hc3, ht3⟩ := phaseBAUnitsS_char h3
  subst hc3
  obtain ⟨hc4, ht4⟩ := phaseTRA_char h4
  subst hc4
  obtain ⟨hc5, ht5⟩ := phaseRates_char h5
  subst hc5
  obtain ⟨hc6, ht6⟩ := phaseAssign_char h6
  subst hc6
  obtain ⟨hc7, ht7⟩ := phaseAssess_char h7
  subst hc7
  obtain ⟨S, hS, hc8, ht8⟩ := phaseSupp_char h8
  subst hc8
  obtain ⟨hc9, ht9⟩ := phaseRRR_char h9
  have hrrrne := phaseRRR_ne h9
  subst hc9
  obtain ⟨hc10, ht10⟩ := phaseBills_char h10
  have hbillne := phaseBills_ne h10
  subst hc10
  obtain ⟨H, hH, hc11, ht11⟩ := phasePays_char h11
  subst hc11
  obtain ⟨hc12, ht12⟩ := phasePaid_char h12
  subst hc12
  subst e0 e1 e2 e3 e4 e5 e6 e7 e8 e9 e10
  subst ht1 ht2 ht3 ht4 ht5 ht6 ht7 ht8 ht9 ht10 ht11 ht12
  simp only [initCore, List.append_nil, List.nil_append, List.length_nil,
    List.length_append, List.length_range', billKeys_length, Nat.zero_add,
    Nat.add_zero] at hS hH hrrrne hbillne
  refine ⟨S, H, ?_, ?_, ?_, ?_, ?_, ?_, ?_, ?_, ?_, ?_, ?_, ?_, ?_, ?_,
    ?_, ?_, ?_⟩
  · exact hS
  · exact hH
  · simp [initCore, range'_one_three]
  · simp [initCore, range'_one_three]
  · simp [initCore, range'_one_three]
  · simp [initCore, range'_one_three]
  · simp [initCore, range'_one_three]
  · simp [initCore, range'_one_three]
  · simp [initCore, range'_one_three]
  · simp [initCore, range'_one_three]
  · simp [initCore, range'_one_three]
  · simp [initCore, range'_one_three]
  · simp [initCore, range'_one_three]
  · simp [initCore, range'_one_three]
  · intro hK
    obtain ⟨hb, hp⟩ := hbillne hK
    constructor
    · intro hM0
      subst hM0
      exact hb rfl
    · intro hN0
      subst hN0
      exact hp rfl
  · intro hM hN0
    subst hN0
    refine hrrrne ?_ rfl
    intro hnil
    apply hM
    have := congrArg List.length hnil
    simpa [List.length_range'] using this
  · simp [initCore, range'_one_three]

theorem runRC_char {env : Env} {N M K : Nat} {C : Core} {t : List Stmt}
    (h : runRC env N M K = .ok (C, t)) :
    ∃ S H,
      pySample env.suppSel 0 (List.range' 1 M) (min (M / 5) 10) = some S ∧
      pySample env.paySel 0 (billKeys env 0 1 K) (K / 2) = some H ∧
      C.partyIds = List.range' 1 N ∧
      C.spatialIds = List.range' 1 M ∧
      C.baunitIds = List.range' 1 M ∧
      C.traIds = [1, 2, 3] ∧
      C.taxRateIds = [1, 2, 3] ∧
      C.traAssign = choosePairs env.traIdx [1, 2, 3] 0 (List.range' 1 M) ∧
      C.assessRows = choosePairs env.rateIdx [1, 2, 3] 0 (List.range' 1 M) ∧
      C.suppRows = choosePairs env.suppRateIdx [1, 2, 3] 0 S ∧
      C.rrrRows = choosePairs env.rrrPartyIdx (List.range' 1 N) 0
        (List.range' 1 M) ∧
      C.insertedBills = billKeys env 0 1 K ∧
      C.bills = paidFold env 0 (billKeys env 0 1 K)
        (billRowsL env (List.range' 1 M) (List.range' 1 N) 0 1 K) ∧
      C.payments = payRowsL env 0 H ∧
      (1 ≤ K → M ≠ 0 ∧ N ≠ 0) ∧
      (M ≠ 0 → N ≠ 0) ∧
      t = (List.range' 0 N).map (partyStmtRC env) ++
        ((List.range' 0 M).map (spatialStmtRC env) ++
        (mapIdxFrom (baunitStmtRC env) 0 (List.range' 1 M) ++
        (traCodes.map traStmt ++
        (taxRatesData.map rateStmt ++
        (assignTrace env [1, 2, 3] 0 (List.range' 1 M) ++
        (assessTrace env [1, 2, 3] 0 (List.range' 1 M) ++
        (suppTrace env [1, 2, 3] 0 S ++
        (rrrTrace env (List.range' 1 N) 0 (List.range' 1 M) ++
        (billTr env (List.range' 1 M) (List.range' 1 N) 0 K ++
        (payTr env 0 H ++
        paidTr env 0 (billKeys env 0 1 K))))))))))) := by
  unfold runRC seedPhasesRC phasesTail at h
  obtain ⟨c1, t1, r1, h1, h, e0⟩ := pseq_ok2 h
  obtain ⟨c2, t2, r2, h2, h, e1⟩ := pseq_ok2 h
  obtain ⟨c3, t3, r3, h3, h, e2⟩ := pseq_ok2 h
  obtain ⟨c4, t4, r4, h4, h, e3⟩ := pseq_ok2 h
  obtain ⟨c5, t5, r5, h5, h, e4⟩ := pseq_ok2 h
  obtain ⟨c6, t6, r6, h6, h, e5⟩ := pseq_ok2 h
  obtain ⟨c7, t7, r7, h7, h, e6⟩ := pseq_ok2 h
  obtain ⟨c8, t8, r8, h8, h, e7⟩ := pseq_ok2 h
  obtain ⟨c9, t9, r9, h9, h, e8⟩ := pseq_ok2 h
  obtain ⟨c10, t10, r10, h10, h, e9⟩ := pseq_ok2 h
  obtain ⟨c11, t11, t12, h11, h12, e10⟩ := pseq_ok2 h
  obtain ⟨hc1, ht1⟩ := phasePartiesRC_char h1
  subst hc1
  obtain ⟨hc2, ht2⟩ := phaseSpatialRC_char h2
  subst hc2
  obtain ⟨hc3, ht3⟩ := phaseBAUnitsRC_char h3
  subst hc3
  obtain ⟨hc4, ht4⟩ := phaseTRA_char h4
  subst hc4
  obtain ⟨hc5, ht5⟩ := phaseRates_char h5
  subst hc5
  obtain ⟨hc6, ht6⟩ := phaseAssign_char h6
  subst hc6
  obtain ⟨hc7, ht7⟩ := phaseAssess_char h7
  subst hc7
  obtain ⟨S, hS, hc8, ht8⟩ := phaseSupp_char h8
  subst hc8
  obtain ⟨hc9, ht9⟩ := phaseRRR_char h9
  have hrrrne := phaseRRR_ne h9
  subst hc9
  obtain ⟨hc10, ht10⟩ := phaseBills_char h10
  have hbillne := phaseBills_ne h10
  subst hc10
  obtain ⟨H, hH, hc11, ht11⟩ := phasePays_char h11
  subst hc11
  obtain ⟨hc12, ht12⟩ := phasePaid_char h12
  subst hc12
  subst e0 e1 e2 e3 e4 e5 e6 e7 e8 e9 e10
  subst ht1 ht2 ht3 ht4 ht5 ht6 ht7 ht8 ht9 ht10 ht11 ht12
  simp only [initCore, List.append_nil, List.nil_append, List.length_nil,
    List.length_append, List.length_range', billKeys_length, Nat.zero_add,
    Nat.add_zero] at hS hH hrrrne hbillne
  refine ⟨S, H, ?_, ?_, ?_, ?_, ?_, ?_, ?_, ?_, ?_, ?_, ?_, ?_, ?_, ?_,
    ?_, ?_, ?_⟩
  · exact hS
  · exact hH
  · simp [initCore, range'_one_three]
  · simp [initCore, range'_one_three]
  · simp [initCore, range'_one_three]
  · simp [initCore, range'_one_three]
  · simp [initCore, range'_one_three]
  · simp [initCore, range'_one_three]
  · simp [initCore, range'_one_three]
  · simp [initCore, range'_one_three]
  · simp [initCore, range'_one_three]
  · simp [initCore, range'_one_three]
  · simp [initCore, range'_one_three]
  · simp [initCore, range'_one_three]
  · intro hK
    obtain ⟨hb, hp⟩ := hbillne hK
    constructor
    · intro hM0
      subst hM0
      exact hb rfl
    · intro hN0
      subst hN0
      exact hp rfl
  · intro hM hN0
    subst hN0
    refine hrrrne ?_ rfl
    intro hnil
    apply hM
    have := congrArg List.length hnil
    simpa [List.length_range'] using this
  · simp [initCore, range'_one_three]


/-! ## Success destructuring and trace counting -/

theorem successS_ok {env : Env} {N M K : Nat}
    (hs : successS env N M K = true) :
    runS env N M K = .ok (coreS env N M K, traceS env N M K) := by
  unfold successS at hs
  unfold coreS traceS
  cases hr : runS env N M K with
  | error e => rw [hr] at hs; simp at hs
  | ok p => rfl

theorem successRC_ok {env : Env} {N M K : Nat}
    (hs : successRC env N M K = true) :
    runRC env N M K = .ok (coreRC env N M K, traceRC env N M K) := by
  unfold successRC at hs
  unfold coreRC traceRC
  cases hr : runRC env N M K with
  | error e => rw [hr] at hs; simp at hs
  | ok p => rfl

theorem billTr_mem (env : Env) (B P : List Nat) :
    ∀ (k i : Nat) (x : Stmt), x ∈ billTr env B P i k →
      ∃ j b p2, x = billStmt env j b p2 := by
  intro k
  induction k with
  | zero => intro i x hx; cases hx
  | succ k ih =>
    intro i x hx
    rcases List.mem_cons.mp hx with h1 | h2
    · exact ⟨i, _, _, h1⟩
    · exact ih (i + 1) x h2

theorem billTr_length (env : Env) (B P : List Nat) :
    ∀ (k i : Nat), (billTr env B P i k).length = k := by
  intro k
  induction k with
  | zero => intro i; rfl
  | succ k ih => intro i; simp [billTr, ih]

theorem payTr_mem (env : Env) :
    ∀ (xs : List (Int × Nat)) (s : Nat) (x : Stmt), x ∈ payTr env s xs →
      ∃ i j b, x = payStmt env i j b := by
  intro xs
  induction xs with
  | nil => intro s x hx; cases hx
  | cons b bs ih =>
    intro s x hx
    rcases List.mem_append.mp hx with h1 | h2
    · obtain ⟨j, hj, he⟩ := List.mem_map.mp h1
      exact ⟨s, j, b, he.symm⟩
    · exact ih (s + 1) x h2

theorem paidTr_mem (env : Env) :
    ∀ (xs : List (Int × Nat)) (s : Nat) (x : Stmt), x ∈ paidTr env s xs →
      ∃ b, x = paidStmt b := by
  intro xs
  induction xs with
  | nil => intro s x hx; cases hx
  | cons b bs ih =>
    intro s x hx
    rcases List.mem_append.mp hx with h1 | h2
    · by_cases hc : env.paidU s < mkRat 1 2
      · rw [if_pos hc] at h1
        rcases List.mem_singleton.mp h1 with rfl
        exact ⟨b, rfl⟩
      · rw [if_neg hc] at h1
        cases h1
    · exact ih (s + 1) x h2

theorem countP_isIns_of_seg {T T2 : Tbl} {k : StmtKind} {l : List Stmt}
    (h : ∀ x ∈ l, x.table = T2 ∧ x.kind = k) :
    l.countP (isIns T) =
      if T2 = T ∧ k = StmtKind.ins then l.length else 0 := by
  by_cases hc : T2 = T ∧ k = StmtKind.ins
  · rw [if_pos hc]
    apply List.countP_eq_length.mpr
    intro a ha
    obtain ⟨h1, h2⟩ := h a ha
    simp [isIns, h1, h2, hc.1, hc.2]
  · rw [if_neg hc]
    apply List.countP_eq_zero.mpr
    intro a ha
    obtain ⟨h1, h2⟩ := h a ha
    simp only [isIns, h1, h2, Bool.and_eq_true, decide_eq_true_eq]
    exact fun hT => hc hT

/-- Complete statement-count table of a successful `seeder.py` run. -/
theorem insCount_runS {env : Env} {N M K : Nat} {C : Core} {t : List Stmt}
    (h : runS env N M K = .ok (C, t)) :
    ∃ S H,
      pySample env.suppSel 0 (List.range' 1 M) (min (M / 5) 10) = some S ∧
      pySample env.paySel 0 (billKeys env 0 1 K) (K / 2) = some H ∧
      insCount .party t = N ∧ insCount .spatial t = M ∧
      insCount .baunit t = M ∧ insCount .bill t = K ∧
      insCount .tra t = 3 ∧ insCount .rate t = 3 ∧
      insCount .assess t = M ∧ insCount .rrr t = M ∧
      insCount .supp t = S.length ∧
      insCount .pay t = (payTr env 0 H).length := by
  obtain ⟨S, H, hS, hH, _, _, _, _, _, _, _, _, _, _, _, _, _, _, ht⟩ :=
    runS_char h
  subst ht
  have e1 : ∀ T, List.countP (isIns T)
      ((List.range' 0 N).map (partyStmtS env)) =
      if Tbl.party = T then N else 0 := by
    intro T
    rw [@countP_isIns_of_seg T Tbl.party StmtKind.ins _ ?_]
    · simp
    · intro x hx
      obtain ⟨i, _, rfl⟩ := List.mem_map.mp hx
      exact ⟨rfl, rfl⟩
  have e2 : ∀ T, List.countP (isIns T)
      ((List.range' 0 M).map (spatialStmtS env)) =
      if Tbl.spatial = T then M else 0 := by
    intro T
    rw [@countP_isIns_of_seg T Tbl.spatial StmtKind.ins _ ?_]
    · simp
    · intro x hx
      obtain ⟨i, _, rfl⟩ := List.mem_map.mp hx
      exact ⟨rfl, rfl⟩
  have e3 : ∀ T, List.countP (isIns T)
      (mapIdxFrom (baunitStmtS env) 0 (List.range' 1 M)) =
      if Tbl.baunit = T then M else 0 := by
    intro T
    rw [@countP_isIns_of_seg T Tbl.baunit StmtKind.ins _ ?_]
    · simp [mapIdxFrom_length]
    · intro x hx
      obtain ⟨i, z, _, rfl⟩ := mapIdxFrom_mem _ _ x hx
      exact ⟨rfl, rfl⟩
  have e4 : ∀ T, List.countP (isIns T) (traCodes.map traStmt) =
      if Tbl.tra = T then 3 else 0 := by
    intro T
    rw [@countP_isIns_of_seg T Tbl.tra StmtKind.ins _ ?_]
    · simp [traCodes]
    · intro x hx
      obtain ⟨p, _, rfl⟩ := List.mem_map.mp hx
      exact ⟨rfl, rfl⟩
  have e5 : ∀ T, List.countP (isIns T) (taxRatesData.map rateStmt) =
      if Tbl.rate = T then 3 else 0 := by
    intro T
    rw [@countP_isIns_of_seg T Tbl.rate StmtKind.ins _ ?_]
    · simp [taxRatesData]
    · intro x hx
      obtain ⟨p, _, rfl⟩ := List.mem_map.mp hx
      exact ⟨rfl, rfl⟩
  have e6 : ∀ T, List.countP (isIns T)
      (assignTrace env [1, 2, 3] 0 (List.range' 1 M)) = 0 := by
    intro T
    rw [@countP_isIns_of_seg T Tbl.baunit StmtKind.upd _ ?_]
    · simp
    · intro x hx
      obtain ⟨i, b, _, rfl⟩ := chooseTrace_mem _ _ x hx
      exact ⟨rfl, rfl⟩
  have e7 : ∀ T, List.countP (isIns T)
      (assessTrace env [1, 2, 3] 0 (List.range' 1 M)) =
      if Tbl.assess = T then M else 0 := by
    intro T
    rw [@countP_isIns_of_seg T Tbl.assess StmtKind.ins _ ?_]
    · simp [assessTrace, chooseTrace_length]
    · intro x hx
      obtain ⟨i, b, _, rfl⟩ := chooseTrace_mem _ _ x hx
      exact ⟨rfl, rfl⟩
  have e8 : ∀ T, List.countP (isIns T) (suppTrace env [1, 2, 3] 0 S) =
      if Tbl.supp = T then S.length else 0 := by
    intro T
    rw [@countP_isIns_of_seg T Tbl.supp StmtKind.ins _ ?_]
    · simp [suppTrace, chooseTrace_length]
    · intro x hx
      obtain ⟨i, b, _, rfl⟩ := chooseTrace_mem _ _ x hx
      exact ⟨rfl, rfl⟩
  have e9 : ∀ T, List.countP (isIns T)
      (rrrTrace env (List.range' 1 N) 0 (List.range' 1 M)) =
      if Tbl.rrr = T then M else 0 := by
    intro T
    rw [@countP_isIns_of_seg T Tbl.rrr StmtKind.ins _ ?_]
    · simp [rrrTrace, chooseTrace_length]
    · intro x hx
      obtain ⟨i, b, _, rfl⟩ := chooseTrace_mem _ _ x hx
      exact ⟨rfl, rfl⟩
  have e10 : ∀ T, List.countP (isIns T)
      (billTr env (List.range' 1 M) (List.range' 1 N) 0 K) =
      if Tbl.bill = T then K else 0 := by
    intro T
    rw [@countP_isIns_of_seg T Tbl.bill StmtKind.ins _ ?_]
    · simp [billTr_length]
    · intro x hx
      obtain ⟨j, b, p2, rfl⟩ := billTr_mem _ _ _ _ _ x hx
      exact ⟨rfl, rfl⟩
  have e11 : ∀ T, List.countP (isIns T) (payTr env 0 H) =
      if Tbl.pay = T then (payTr env 0 H).length else 0 := by
    intro T
    rw [@countP_isIns_of_seg T Tbl.pay StmtKind.ins _ ?_]
    · simp
    · intro x hx
      obtain ⟨i, j, b, rfl⟩ := payTr_mem _ _ _ x hx
      exact ⟨rfl, rfl⟩
  have e12 : ∀ T, List.countP (isIns T)
      (paidTr env 0 (billKeys env 0 1 K)) = 0 := by
    intro T
    rw [@countP_isIns_of_seg T Tbl.bill StmtKind.upd _ ?_]
    · simp
    · intro x hx
      obtain ⟨b, rfl⟩ := paidTr_mem _ _ _ x hx
      exact ⟨rfl, rfl⟩
  refine ⟨S, H, hS, hH, ?_, ?_, ?_, ?_, ?_, ?_, ?_, ?_, ?_, ?_⟩ <;>
    simp [insCount, List.countP_append, e1, e2, e3, e4, e5, e6, e7, e8, e9,
      e10, e11, e12]

theorem paidFold_length (env : Env) :
    ∀ (ks : List (Int × Nat)) (s : Nat) (rs : List BillRow),
      (paidFold env s ks rs).length = rs.length := by
  intro ks
  induction ks with
  | nil => intro s rs; rfl
  | cons k ks ih =>
    intro s rs
    rw [show paidFold env s (k :: ks) rs =
        paidFold env (s + 1) ks
          (if env.paidU s < mkRat 1 2 then paidApply k rs else rs) from rfl]
    rw [ih]
    split
    · exact List.length_map rs _
    · rfl

/-! ## Claim theorems -/

/-- Claim C1: every successful run of `seed_data` requesting `N` parties,
`M` parcels and `K` bills executes exactly `N` `LA_Party` INSERTs, `M`
`LA_SpatialUnit` INSERTs, `M` `LA_BAUnit` INSERTs and `K` `TaxBill`
INSERTs, and afterwards exactly `N` party ids, `M` spatial-unit ids, `M`
administrative-unit ids and `K` bill rows exist. -/
theorem C1_insert_and_row_counts (env : Env) (N M K : Nat)
    (hs : successS env N M K = true) :
    insCount .party (traceS env N M K) = N ∧
    insCount .spatial (traceS env N M K) = M ∧
    insCount .baunit (traceS env N M K) = M ∧
    insCount .bill (traceS env N M K) = K ∧
    (coreS env N M K).partyIds.length = N ∧
    (coreS env N M K).spatialIds.length = M ∧
    (coreS env N M K).baunitIds.length = M ∧
    (coreS env N M K).bills.length = K := by
  have hr := successS_ok hs
  obtain ⟨S, H, _, _, h1, h2, h3, h4, _, _, _, _, _, _⟩ := insCount_runS hr
  obtain ⟨S2, H2, _, _, hp, hsp, hba, _, _, _, _, _, _, _, hbills, _, _, _,
    _⟩ := runS_char hr
  refine ⟨h1, h2, h3, h4, ?_, ?_, ?_, ?_⟩
  · rw [hp, List.length_range']
  · rw [hsp, List.length_range']
  · rw [hba, List.length_range']
  · rw [hbills, paidFold_length, billRowsL_length]

set_option maxHeartbeats 1000000 in
theorem C1_witness :
    successS envC 1 1 1 = true ∧
    insCount .party (traceS envC 1 1 1) = 1 ∧
    insCount .spatial (traceS envC 1 1 1) = 1 ∧
    insCount .baunit (traceS envC 1 1 1) = 1 ∧
    insCount .bill (traceS envC 1 1 1) = 1 := by
  have hs : successS envC 1 1 1 = true := by decide
  have h := C1_insert_and_row_counts envC 1 1 1 hs
  exact ⟨hs, h.1, h.2.1, h.2.2.1, h.2.2.2.1⟩

/-- Claim C3: in every successful run with `M` parcels, exactly
`min (M / 5) 10` SupplementalAssessment rows are inserted, for a subset of
BAUnits sampled without replacement (so the chosen units are distinct and
all among the inserted administrative units). -/
theorem C3_supp_count (env : Env) (N M K : Nat)
    (hs : successS env N M K = true) :
    insCount .supp (traceS env N M K) = min (M / 5) 10 ∧
    (coreS env N M K).suppRows.length = min (M / 5) 10 ∧
    ∃ S, pySample env.suppSel 0 (List.range' 1 M) (min (M / 5) 10) = some S ∧
      S.Nodup ∧ ∀ b ∈ S, b ∈ (coreS env N M K).baunitIds := by
  have hr := successS_ok hs
  obtain ⟨S, H, hS, _, _, _, _, _, _, _, _, _, hsupcnt, _⟩ := insCount_runS hr
  obtain ⟨S2, H2, hS2, _, _, _, hba, _, _, _, _, hsupp, _, _, _, _, _, _,
    _⟩ := runS_char hr
  have hSS : S2 = S := by
    have := hS.symm.trans hS2
    exact (Option.some.injEq _ _).mp this.symm
  subst hSS
  have hlen : S2.length = min (M / 5) 10 := pySample_length _ _ _ _ hS
  refine ⟨hsupcnt.trans hlen, ?_, S2, hS, ?_, ?_⟩
  · rw [hsupp, choosePairs_length, hlen]
  · exact pySample_nodup _ _ _ _ (List.nodup_range' 1 M) hS
  · intro b hb
    rw [hba]
    exact pySample_subset _ _ _ _ hS b hb

set_option maxHeartbeats 1000000 in
theorem C3_witness :
    successS envC 1 1 1 = true ∧
    insCount .supp (traceS envC 1 1 1) = min (1 / 5) 10 := by
  have hs : successS envC 1 1 1 = true := by decide
  exact ⟨hs, (C3_supp_count envC 1 1 1 hs).1⟩

theorem count_commit_stmts (l : List Stmt) :
    (l.map Event.stmt).count Event.commit = 0 := by
  apply List.count_eq_zero.mpr
  intro hmem
  obtain ⟨s, _, he⟩ := List.mem_map.mp hmem
  cases he

/-- Claim C5: `seed_data` commits exactly once and only after every
statement has succeeded (commit is the final event); on any exception it
rolls the whole transaction back (nothing remains committed), re-raises the
original exception unchanged, and no commit happens on the error path. -/
theorem C5_commit_rollback (env : Env) (N M K : Nat) :
    (successS env N M K = true →
      (seedDataS env N M K).events.count Event.commit = 1 ∧
      (seedDataS env N M K).events.getLast? = some Event.commit ∧
      (seedDataS env N M K).raised = none ∧
      (seedDataS env N M K).committed = some (coreS env N M K)) ∧
    (successS env N M K = false →
      (seedDataS env N M K).events.count Event.commit = 0 ∧
      (seedDataS env N M K).events.getLast? = some Event.rollback ∧
      (seedDataS env N M K).committed = none ∧
      ∃ e tr, runS env N M K = .error (e, tr) ∧
        (seedDataS env N M K).raised = some e) := by
  constructor
  · intro hs
    have hr := successS_ok hs
    unfold seedDataS
    rw [hr]
    dsimp only
    refine ⟨?_, ?_, rfl, rfl⟩
    · rw [List.count_append, count_commit_stmts]
      simp
    · exact List.getLast?_concat _
  · intro hs
    unfold successS at hs
    cases hr : runS env N M K with
    | ok p => rw [hr] at hs; simp at hs
    | error e =>
      obtain ⟨e1, tr⟩ := e
      unfold seedDataS
      rw [hr]
      dsimp only
      refine ⟨?_, ?_, rfl, e1, tr, rfl, rfl⟩
      · rw [List.count_append, count_commit_stmts]
        simp
      · exact List.getLast?_concat _

set_option maxHeartbeats 1000000 in
theorem C5_witness :
    ((seedDataS envC 0 0 0).raised = none ∧
      (seedDataS envC 0 0 0).committed = some (coreS envC 0 0 0) ∧
      (seedDataS envC 0 0 0).events.count Event.commit = 1) ∧
    ((seedDataS { envC with failAt := some 0 } 1 0 0).events.count
        Event.commit = 0 ∧
      (seedDataS { envC with failAt := some 0 } 1 0 0).committed = none) := by
  have h1 := (C5_commit_rollback envC 0 0 0).1 (by decide)
  have h2 := (C5_commit_rollback { envC with failAt := some 0 } 1 0 0).2
    (by decide)
  exact ⟨⟨h1.2.2.1, h1.2.2.2, h1.1⟩, h2.1, h2.2.2.1⟩

/-- Every statement of a successful `seeder.py` run has one of the twelve
shapes emitted by the ten phases. -/
theorem traceS_shapes {env : Env} {N M K : Nat} {C : Core} {t : List Stmt}
    (h : runS env N M K = .ok (C, t)) :
    ∀ s ∈ t,
      (∃ i, s = partyStmtS env i) ∨ (∃ i, s = spatialStmtS env i) ∨
      (∃ i x, s = baunitStmtS env i x) ∨ (∃ p, s = traStmt p) ∨
      (∃ p, s = rateStmt p) ∨ (∃ b tid, s = assignStmt b tid) ∨
      (∃ i b rid, s = assessStmt env i b rid) ∨
      (∃ i b rid, s = suppStmt env i b rid) ∨
      (∃ i b pid, s = rrrStmt env i b pid) ∨
      (∃ i b pid, s = billStmt env i b pid) ∨
      (∃ i j b, s = payStmt env i j b) ∨ (∃ b, s = paidStmt b) := by
  obtain ⟨S, H, _, _, _, _, _, _, _, _, _, _, _, _, _, _, _, _, ht⟩ :=
    runS_char h
  subst ht
  intro s hsx
  rcases List.mem_append.mp hsx with hm | hsx
  · obtain ⟨i, _, rfl⟩ := List.mem_map.mp hm
    exact Or.inl ⟨i, rfl⟩
  rcases List.mem_append.mp hsx with hm | hsx
  · obtain ⟨i, _, rfl⟩ := List.mem_map.mp hm
    exact Or.inr (Or.inl ⟨i, rfl⟩)
  rcases List.mem_append.mp hsx with hm | hsx
  · obtain ⟨i, x, _, rfl⟩ := mapIdxFrom_mem _ _ _ hm
    exact Or.inr (Or.inr (Or.inl ⟨i, x, rfl⟩))
  rcases List.mem_append.mp hsx with hm | hsx
  · obtain ⟨p, _, rfl⟩ := List.mem_map.mp hm
    exact Or.inr (Or.inr (Or.inr (Or.inl ⟨p, rfl⟩)))
  rcases List.mem_append.mp hsx with hm | hsx
  · obtain ⟨p, _, rfl⟩ := List.mem_map.mp hm
    exact Or.inr (Or.inr (Or.inr (Or.inr (Or.inl ⟨p, rfl⟩))))
  rcases List.mem_append.mp hsx with hm | hsx
  · obtain ⟨i, b, _, rfl⟩ := chooseTrace_mem _ _ _ hm
    exact Or.inr (Or.inr (Or.inr (Or.inr (Or.inr (Or.inl ⟨b, _, rfl⟩)))))
  rcases List.mem_append.mp hsx with hm | hsx
  · obtain ⟨i, b, _, rfl⟩ := chooseTrace_mem _ _ _ hm
    exact Or.inr (Or.inr (Or.inr (Or.inr (Or.inr (Or.inr (Or.inl
      ⟨i, b, _, rfl⟩))))))
  rcases List.mem_append.mp hsx with hm | hsx
  · obtain ⟨i, b, _, rfl⟩ := chooseTrace_mem _ _ _ hm
    exact Or.inr (Or.inr (Or.inr (Or.inr (Or.inr (Or.inr (Or.inr (Or.inl
      ⟨i, b, _, rfl⟩)))))))
  rcases List.mem_append.mp hsx with hm | hsx
  · obtain ⟨i, b, _, rfl⟩ := chooseTrace_mem _ _ _ hm
    exact Or.inr (Or.inr (Or.inr (Or.inr (Or.inr (Or.inr (Or.inr (Or.inr
      (Or.inl ⟨i, b, _, rfl⟩))))))))
  rcases List.mem_append.mp hsx with hm | hsx
  · obtain ⟨j, b, p2, rfl⟩ := billTr_mem _ _ _ _ _ _ hm
    exact Or.inr (Or.inr (Or.inr (Or.inr (Or.inr (Or.inr (Or.inr (Or.inr
      (Or.inr (Or.inl ⟨j, b, p2, rfl⟩)))))))))
  rcases List.mem_append.mp hsx with hm | hsx
  · obtain ⟨i, j, b, rfl⟩ := payTr_mem _ _ _ _ hm
    exact Or.inr (Or.inr (Or.inr (Or.inr (Or.inr (Or.inr (Or.inr (Or.inr
      (Or.inr (Or.inr (Or.inl ⟨i, j, b, rfl⟩))))))))))
  · obtain ⟨b, rfl⟩ := paidTr_mem _ _ _ _ hsx
    exact Or.inr (Or.inr (Or.inr (Or.inr (Or.inr (Or.inr (Or.inr (Or.inr
      (Or.inr (Or.inr (Or.inr ⟨b, rfl⟩))))))))))

/-- Claim C10: every inserted bill has a due date exactly 30 days after its
bill date and a NULL supplemental id, and every `TaxBill` INSERT carries
`is_paid = false` among its bound parameters. -/
theorem C10_bill_fields (env : Env) (N M K : Nat)
    (hs : successS env N M K = true) :
    (∀ r ∈ (coreS env N M K).bills,
      r.due_date = r.bill_date + 30 ∧ r.supplemental_id = none) ∧
    (∀ s ∈ traceS env N M K, isIns .bill s = true →
      ∃ d buid pid amt ty, s.params =
        [.int d, .nat buid, .nat pid, .int (d + 30), .q amt, .b false,
         .s ty, .null]) := by
  have hr := successS_ok hs
  obtain ⟨S, H, _, _, _, _, _, _, _, _, _, _, _, _, hbills, _, _, _, _⟩ :=
    runS_char hr
  constructor
  · intro r hrr
    rw [hbills] at hrr
    rw [paidFold_eq_flipAll env _ _ _ (billRowsL_map_key env _ _ K 0 1)
      (billKeys_nodup env K 0 1)] at hrr
    obtain ⟨r0, hr0, he⟩ := flipAll_mem env _ 0 r hrr
    have hm := billRowsL_mem env _ _ K 0 1 r0 hr0
    rcases he with rfl | rfl
    · exact ⟨hm.2.1, hm.2.2.1⟩
    · exact ⟨hm.2.1, hm.2.2.1⟩
  · intro s hsx hins
    have hbk : s.table = Tbl.bill ∧ s.kind = StmtKind.ins := by
      have := hins
      simp only [isIns, Bool.and_eq_true, decide_eq_true_eq] at this
      exact this
    rcases traceS_shapes hr s hsx with ⟨i, rfl⟩ | ⟨i, rfl⟩ | ⟨i, x, rfl⟩ |
      ⟨p, rfl⟩ | ⟨p, rfl⟩ | ⟨b, tid, rfl⟩ | ⟨i, b, rid, rfl⟩ |
      ⟨i, b, rid, rfl⟩ | ⟨i, b, pid, rfl⟩ | ⟨i, b, pid, rfl⟩ |
      ⟨i, j, b, rfl⟩ | ⟨b, rfl⟩
    · simp [partyStmtS] at hbk
    · simp [spatialStmtS] at hbk
    · simp [baunitStmtS] at hbk
    · simp [traStmt] at hbk
    · simp [rateStmt] at hbk
    · simp [assignStmt] at hbk
    · simp [assessStmt] at hbk
    · simp [suppStmt] at hbk
    · simp [rrrStmt] at hbk
    · exact ⟨env.billDate i, b, pid, pyUniform 500 5000 (env.billAmtU i),
        billTypes.getD (env.billTypeIdx i % billTypes.length) "", rfl⟩
    · simp [payStmt] at hbk
    · simp [paidStmt] at hbk

set_option maxHeartbeats 1000000 in
theorem C10_witness :
    successS envC 1 1 1 = true ∧
    ∀ r ∈ (coreS envC 1 1 1).bills,
      r.due_date = r.bill_date + 30 ∧ r.supplemental_id = none := by
  have hs : successS envC 1 1 1 = true := by decide
  exact ⟨hs, (C10_bill_fields envC 1 1 1 hs).1⟩

/-- Claim C8: in every spatial-unit INSERT the geometry value is
interpolated into the query text as a literal spatial-function call (and
its other fields are bound parameters), while every other statement of the
run interpolates nothing into its query text. -/
theorem C8_geometry_interpolated (env : Env) (N M K : Nat)
    (hs : successS env N M K = true) :
    ∀ s ∈ traceS env N M K,
      (s.table = Tbl.spatial →
        (∃ lng lat, s.interp = [pointText lng lat]) ∧
        ∃ a cr ar, s.params = [.s a, .s cr, .q ar]) ∧
      (s.table ≠ Tbl.spatial → s.interp = []) := by
  have hr := successS_ok hs
  intro s hsx
  rcases traceS_shapes hr s hsx with ⟨i, rfl⟩ | ⟨i, rfl⟩ | ⟨i, x, rfl⟩ |
    ⟨p, rfl⟩ | ⟨p, rfl⟩ | ⟨b, tid, rfl⟩ | ⟨i, b, rid, rfl⟩ |
    ⟨i, b, rid, rfl⟩ | ⟨i, b, pid, rfl⟩ | ⟨i, b, pid, rfl⟩ |
    ⟨i, j, b, rfl⟩ | ⟨b, rfl⟩
  · exact ⟨fun hc => by simp [partyStmtS] at hc, fun _ => rfl⟩
  · refine ⟨fun _ => ⟨⟨_, _, rfl⟩, _, _, _, rfl⟩, fun hc => ?_⟩
    exact absurd rfl hc
  · exact ⟨fun hc => by simp [baunitStmtS] at hc, fun _ => rfl⟩
  · exact ⟨fun hc => by simp [traStmt] at hc, fun _ => rfl⟩
  · exact ⟨fun hc => by simp [rateStmt] at hc, fun _ => rfl⟩
  · exact ⟨fun hc => by simp [assignStmt] at hc, fun _ => rfl⟩
  · exact ⟨fun hc => by simp [assessStmt] at hc, fun _ => rfl⟩
  · exact ⟨fun hc => by simp [suppStmt] at hc, fun _ => rfl⟩
  · exact ⟨fun hc => by simp [rrrStmt] at hc, fun _ => rfl⟩
  · exact ⟨fun hc => by simp [billStmt] at hc, fun _ => rfl⟩
  · exact ⟨fun hc => by simp [payStmt] at hc, fun _ => rfl⟩
  · exact ⟨fun hc => by simp [paidStmt] at hc, fun _ => rfl⟩

set_option maxHeartbeats 1000000 in
theorem C8_witness :
    successS envC 1 1 0 = true ∧
    ∀ s ∈ traceS envC 1 1 0, s.table ≠ Tbl.spatial → s.interp = [] := by
  have hs : successS envC 1 1 0 = true := by decide
  exact ⟨hs, fun s hsx hne => (C8_geometry_interpolated envC 1 1 0 hs s hsx).2 hne⟩

/-- Claim C7: every foreign-key value used by a later insert or update was
captured from the RETURNING clause of an earlier insert of the same run:
bill and ownership rows reference captured party and BAUnit ids, assessment
and supplemental rows reference captured tax-rate ids, the TRA assigned to
each BAUnit is a captured TRA id, and every payment references a captured
`(bill_date, bill_uid)` pair. -/
theorem C7_referential_integrity (env : Env) (N M K : Nat)
    (hs : successS env N M K = true) :
    (∀ r ∈ (coreS env N M K).bills,
      r.party_id ∈ (coreS env N M K).partyIds ∧
      r.ba_unit_id ∈ (coreS env N M K).baunitIds) ∧
    (∀ p ∈ (coreS env N M K).rrrRows,
      p.1 ∈ (coreS env N M K).baunitIds ∧
      p.2 ∈ (coreS env N M K).partyIds) ∧
    (∀ p ∈ (coreS env N M K).assessRows,
      p.1 ∈ (coreS env N M K).baunitIds ∧
      p.2 ∈ (coreS env N M K).taxRateIds) ∧
    (∀ p ∈ (coreS env N M K).suppRows,
      p.1 ∈ (coreS env N M K).baunitIds ∧
      p.2 ∈ (coreS env N M K).taxRateIds) ∧
    (∀ p ∈ (coreS env N M K).traAssign,
      p.1 ∈ (coreS env N M K).baunitIds ∧
      p.2 ∈ (coreS env N M K).traIds) ∧
    (∀ p ∈ (coreS env N M K).payments,
      (p.bill_date, p.bill_uid) ∈ (coreS env N M K).insertedBills) := by
  have hr := successS_ok hs
  obtain ⟨S, H, hS, hH, hparty, _, hbaunit, htra, hrate, hassign, hassess,
    hsupp, hrrr, hins, hbills, hpays, hne, hMN, _⟩ := runS_char hr
  have hMne : M ≠ 0 → (List.range' 1 M) ≠ [] := by
    intro hM hnil
    exact hM (by simpa using List.range'_eq_nil.mp hnil)
  have hNne : N ≠ 0 → (List.range' 1 N) ≠ [] := by
    intro hN hnil
    exact hN (by simpa using List.range'_eq_nil.mp hnil)
  refine ⟨?_, ?_, ?_, ?_, ?_, ?_⟩
  · intro r hrr
    rw [hbills] at hrr
    have hK : 1 ≤ K := by
      by_contra hK0
      have hKz : K = 0 := by omega
      subst hKz
      cases hrr
    obtain ⟨hM, hN⟩ := hne hK
    rw [paidFold_eq_flipAll env _ _ _ (billRowsL_map_key env _ _ K 0 1)
      (billKeys_nodup env K 0 1)] at hrr
    obtain ⟨r0, hr0, he⟩ := flipAll_mem env _ 0 r hrr
    have hm := billRowsL_mem env _ _ K 0 1 r0 hr0
    have h1 := hm.2.2.2.2 (hNne hN)
    have h2 := hm.2.2.2.1 (hMne hM)
    rw [hparty, hbaunit]
    rcases he with rfl | rfl
    · exact ⟨h1, h2⟩
    · exact ⟨h1, h2⟩
  · intro p hp
    rw [hrrr] at hp
    obtain ⟨h1, h2⟩ := choosePairs_mem _ _ p hp
    have hM : M ≠ 0 := by
      intro hM0
      subst hM0
      cases h1
    rw [hparty, hbaunit]
    exact ⟨h1, h2 (hNne (hMN hM))⟩
  · intro p hp
    rw [hassess] at hp
    obtain ⟨h1, h2⟩ := choosePairs_mem _ _ p hp
    rw [hbaunit, hrate]
    exact ⟨h1, h2 (by simp)⟩
  · intro p hp
    rw [hsupp] at hp
    obtain ⟨h1, h2⟩ := choosePairs_mem _ _ p hp
    rw [hbaunit, hrate]
    exact ⟨pySample_subset _ _ _ _ hS p.1 h1, h2 (by simp)⟩
  · intro p hp
    rw [hassign] at hp
    obtain ⟨h1, h2⟩ := choosePairs_mem _ _ p hp
    rw [hbaunit, htra]
    exact ⟨h1, h2 (by simp)⟩
  · intro p hp
    rw [hpays] at hp
    rw [hins]
    exact pySample_subset _ _ _ _ hH _ (payRowsL_mem env _ _ p hp)

set_option maxHeartbeats 1000000 in
theorem C7_witness :
    successS envC 1 1 1 = true ∧
    ∀ r ∈ (coreS envC 1 1 1).bills,
      r.party_id ∈ (coreS envC 1 1 1).partyIds ∧
      r.ba_unit_id ∈ (coreS envC 1 1 1).baunitIds := by
  have hs : successS envC 1 1 1 = true := by decide
  exact ⟨hs, (C7_referential_integrity envC 1 1 1 hs).1⟩

/-- Claim C2: in every successful run with `K` bills, the payment phase
samples exactly `⌊K/2⌋` distinct bills without replacement from the `K`
inserted bills; each sampled bill receives between 1 and 2 payment rows and
every unsampled bill receives none. -/
theorem C2_payment_halving (env : Env) (N M K : Nat)
    (hs : successS env N M K = true) :
    ∃ S, pySample env.paySel 0 (coreS env N M K).insertedBills (K / 2)
        = some S ∧
      S.length = K / 2 ∧ S.Nodup ∧
      (∀ b ∈ S, b ∈ (coreS env N M K).insertedBills) ∧
      (coreS env N M K).insertedBills.length = K ∧
      (coreS env N M K).insertedBills.Nodup ∧
      ∀ b ∈ (coreS env N M K).insertedBills,
        (b ∈ S → 1 ≤ payCount b (coreS env N M K).payments ∧
          payCount b (coreS env N M K).payments ≤ 2) ∧
        (b ∉ S → payCount b (coreS env N M K).payments = 0) := by
  have hr := successS_ok hs
  obtain ⟨S, H, _, hH, _, _, _, _, _, _, _, _, _, hins, _, hpays, _, _,
    _⟩ := runS_char hr
  have hHnd : H.Nodup := pySample_nodup _ _ _ _ (billKeys_nodup env K 0 1) hH
  refine ⟨H, ?_, pySample_length _ _ _ _ hH, hHnd, ?_, ?_, ?_, ?_⟩
  · rw [hins]
    exact hH
  · intro b hb
    rw [hins]
    exact pySample_subset _ _ _ _ hH b hb
  · rw [hins]
    exact billKeys_length env K 0 1
  · rw [hins]
    exact billKeys_nodup env K 0 1
  · intro b _
    rw [hpays]
    exact payRowsL_count env H 0 b hHnd

set_option maxHeartbeats 1000000 in
theorem C2_witness :
    successS envC 1 1 1 = true ∧
    ∃ S, pySample envC.paySel 0 (coreS envC 1 1 1).insertedBills (1 / 2)
        = some S ∧ S.length = 1 / 2 := by
  have hs : successS envC 1 1 1 = true := by decide
  obtain ⟨S, h1, h2, _⟩ := C2_payment_halving envC 1 1 1 hs
  exact ⟨hs, S, h1, h2⟩

/-! ## Error paths: runs that cannot succeed -/

theorem phasePartiesS_ok {env : Env} (hf : env.failAt = none) (n : Nat)
    (c : Core) : ∃ c2 t, phasePartiesS env n c = .ok (c2, t) := by
  obtain ⟨c2, t, h, _⟩ := @prange_ok_inv (insertPartyS env) (fun _ => True)
    (fun i c _ => ⟨partyEff (bump c), [partyStmtS env i] ++ [],
      pseq_mk (emit_ok_of_none hf _ c) rfl, trivial⟩) n 0 c trivial
  exact ⟨c2, t, h⟩

theorem phaseSpatialS_ok {env : Env} (hf : env.failAt = none) (n : Nat)
    (c : Core) : ∃ c2 t, phaseSpatialS env n c = .ok (c2, t) := by
  obtain ⟨c2, t, h, _⟩ := @prange_ok_inv (insertSpatialS env) (fun _ => True)
    (fun i c _ => ⟨spatialEff (bump c), [spatialStmtS env i] ++ [],
      pseq_mk (emit_ok_of_none hf _ c) rfl, trivial⟩) n 0 c trivial
  exact ⟨c2, t, h⟩

theorem phaseBAUnitsS_ok {env : Env} (hf : env.failAt = none) (c : Core) :
    ∃ c2 t, phaseBAUnitsS env c = .ok (c2, t) := by
  unfold phaseBAUnitsS pwith
  obtain ⟨c2, t, h, _⟩ := @plist_ok_inv _ (insertBAUnitS env) (fun _ => True)
    (fun i x c _ => ⟨baunitEff (bump c), [baunitStmtS env i x] ++ [],
      pseq_mk (emit_ok_of_none hf _ c) rfl, trivial⟩) c.spatialIds 0 c trivial
  exact ⟨c2, t, h⟩

theorem phaseTRA_ok {env : Env} (hf : env.failAt = none) (c : Core) :
    ∃ c2 t, phaseTRA env c = .ok (c2, t) := by
  obtain ⟨c2, t, h, _⟩ :=
    @plist_ok_inv _ (fun _ p => insertTRA env p) (fun _ => True)
    (fun i p c _ => ⟨traEff (bump c), [traStmt p] ++ [],
      pseq_mk (emit_ok_of_none hf _ c) rfl, trivial⟩) traCodes 0 c trivial
  exact ⟨c2, t, h⟩

theorem phaseRates_ok {env : Env} (hf : env.failAt = none) (c : Core) :
    ∃ c2 t, phaseRates env c = .ok (c2, t) := by
  obtain ⟨c2, t, h, _⟩ :=
    @plist_ok_inv _ (fun _ p => insertRate env p) (fun _ => True)
    (fun i p c _ => ⟨rateEff (bump c), [rateStmt p] ++ [],
      pseq_mk (emit_ok_of_none hf _ c) rfl, trivial⟩) taxRatesData 0 c trivial
  exact ⟨c2, t, h⟩

theorem assignTRA_ok {env : Env} (hf : env.failAt = none) (i b : Nat)
    (c : Core) (hT : c.traIds ≠ []) :
    ∃ c2 t, assignTRA env i b c = .ok (c2, t) ∧ c2.traIds = c.traIds := by
  obtain ⟨tid, htid⟩ := pyChoice_some_of_ne_nil hT (env.traIdx i)
  have hbody : assignTRA env i b c =
      pseq (emit env (assignStmt b tid))
        (pmod fun c2 => { c2 with traAssign := c2.traAssign ++ [(b, tid)] })
        c := by
    unfold assignTRA pwith
    dsimp only
    rw [htid]
  rw [hbody]
  exact ⟨_, _, pseq_mk (emit_ok_of_none hf _ c) rfl, rfl⟩

theorem phaseAssign_ok {env : Env} (hf : env.failAt = none) (c : Core)
    (hT : c.traIds ≠ []) : ∃ c2 t, phaseAssign env c = .ok (c2, t) := by
  unfold phaseAssign pwith
  obtain ⟨c2, t, h, _⟩ := @plist_ok_inv _ (assignTRA env)
    (fun c2 => c2.traIds = c.traIds)
    (fun i b c2 hP => by
      obtain ⟨c3, t3, h3, hpres⟩ := assignTRA_ok hf i b c2
        (by rw [hP]; exact hT)
      exact ⟨c3, t3, h3, hpres.trans hP⟩) c.baunitIds 0 c rfl
  exact ⟨c2, t, h⟩

theorem insertAssess_ok {env : Env} (hf : env.failAt = none) (i b : Nat)
    (c : Core) (hR : c.taxRateIds ≠ []) :
    ∃ c2 t, insertAssess env i b c = .ok (c2, t) ∧
      c2.taxRateIds = c.taxRateIds := by
  obtain ⟨rid, hrid⟩ := pyChoice_some_of_ne_nil hR (env.rateIdx i)
  have hbody : insertAssess env i b c =
      pseq (emit env (assessStmt env i b rid))
        (pmod fun c2 => { c2 with assessRows := c2.assessRows ++ [(b, rid)] })
        c := by
    unfold insertAssess pwith
    dsimp only
    rw [hrid]
  rw [hbody]
  exact ⟨_, _, pseq_mk (emit_ok_of_none hf _ c) rfl, rfl⟩

theorem phaseAssess_ok {env : Env} (hf : env.failAt = none) (c : Core)
    (hR : c.taxRateIds ≠ []) : ∃ c2 t, phaseAssess env c = .ok (c2, t) := by
  unfold phaseAssess pwith
  obtain ⟨c2, t, h, _⟩ := @plist_ok_inv _ (insertAssess env)
    (fun c2 => c2.taxRateIds = c.taxRateIds)
    (fun i b c2 hP => by
      obtain ⟨c3, t3, h3, hpres⟩ := insertAssess_ok hf i b c2
        (by rw [hP]; exact hR)
      exact ⟨c3, t3, h3, hpres.trans hP⟩) c.baunitIds 0 c rfl
  exact ⟨c2, t, h⟩

theorem insertSupp_ok {env : Env} (hf : env.failAt = none) (i b : Nat)
    (c : Core) (hR : c.taxRateIds ≠ []) :
    ∃ c2 t, insertSupp env i b c = .ok (c2, t) ∧
      c2.taxRateIds = c.taxRateIds := by
  obtain ⟨rid, hrid⟩ := pyChoice_some_of_ne_nil hR (env.suppRateIdx i)
  have hbody : insertSupp env i b c =
      pseq (emit env (suppStmt env i b rid))
        (pmod fun c2 => { c2 with suppRows := c2.suppRows ++ [(b, rid)] })
        c := by
    unfold insertSupp pwith
    dsimp only
    rw [hrid]
  rw [hbody]
  exact ⟨_, _, pseq_mk (emit_ok_of_none hf _ c) rfl, rfl⟩

theorem phaseSupp_ok {env : Env} (hf : env.failAt = none) (c : Core)
    (hR : c.taxRateIds ≠ []) : ∃ c2 t, phaseSupp env c = .ok (c2, t) := by
  unfold phaseSupp pwith
  dsimp only
  obtain ⟨S, hSs⟩ := pySample_some_of_le (min (c.baunitIds.length / 5) 10)
    0 c.baunitIds (le_trans (min_le_left _ _) (Nat.div_le_self _ _))
  rw [hSs]
  dsimp only
  obtain ⟨c2, t, h, _⟩ := @plist_ok_inv _ (insertSupp env)
    (fun c2 => c2.taxRateIds = c.taxRateIds)
    (fun i b c2 hP => by
      obtain ⟨c3, t3, h3, hpres⟩ := insertSupp_ok hf i b c2
        (by rw [hP]; exact hR)
      exact ⟨c3, t3, h3, hpres.trans hP⟩) S 0 c rfl
  exact ⟨c2, t, h⟩

/-- With no injected failure, a run requesting no parcels but at least one
bill raises the bill-phase IndexError: `random.choice` on the empty
`baunit_ids`. -/
theorem runS_err_M0 {env : Env} (hf : env.failAt = none) (N K : Nat)
    (hK : 1 ≤ K) : ∃ tr, runS env N 0 K = .error (Err.ixErr 8, tr) := by
  obtain ⟨c1, t1, h1⟩ := phasePartiesS_ok hf N initCore
  obtain ⟨hc1, _⟩ := phasePartiesS_char h1
  have e_sp1 : c1.spatialIds = [] := by simp [hc1, initCore]
  have e_ba1 : c1.baunitIds = [] := by simp [hc1, initCore]
  have h2 : phaseSpatialS env 0 c1 = .ok (c1, []) := rfl
  obtain ⟨c3, t3, h3⟩ := phaseBAUnitsS_ok hf c1
  obtain ⟨hc3, _⟩ := phaseBAUnitsS_char h3
  have e_ba3 : c3.baunitIds = [] := by simp [hc3, e_sp1, e_ba1]
  obtain ⟨c4, t4, h4⟩ := phaseTRA_ok hf c3
  obtain ⟨hc4, _⟩ := phaseTRA_char h4
  have e_ba4 : c4.baunitIds = [] := by simpa [hc4] using e_ba3
  have e_tra4 : c4.traIds ≠ [] := by simp [hc4]
  obtain ⟨c5, t5, h5⟩ := phaseRates_ok hf c4
  obtain ⟨hc5, _⟩ := phaseRates_char h5
  have e_ba5 : c5.baunitIds = [] := by simpa [hc5] using e_ba4
  have e_tra5 : c5.traIds ≠ [] := by simpa [hc5] using e_tra4
  have e_rate5 : c5.taxRateIds ≠ [] := by simp [hc5]
  obtain ⟨c6, t6, h6⟩ := phaseAssign_ok hf c5 e_tra5
  obtain ⟨hc6, _⟩ := phaseAssign_char h6
  have e_ba6 : c6.baunitIds = [] := by simpa [hc6] using e_ba5
  have e_rate6 : c6.taxRateIds ≠ [] := by simpa [hc6] using e_rate5
  obtain ⟨c7, t7, h7⟩ := phaseAssess_ok hf c6 e_rate6
  obtain ⟨hc7, _⟩ := phaseAssess_char h7
  have e_ba7 : c7.baunitIds = [] := by simpa [hc7] using e_ba6
  have e_rate7 : c7.taxRateIds ≠ [] := by simpa [hc7] using e_rate6
  obtain ⟨c8, t8, h8⟩ := phaseSupp_ok hf c7 e_rate7
  obtain ⟨S8, _, hc8, _⟩ := phaseSupp_char h8
  have e_ba8 : c8.baunitIds = [] := by simpa [hc8] using e_ba7
  have h9 : phaseRRR env c8 = .ok (c8, []) := by
    unfold phaseRRR pwith
    dsimp only
    rw [e_ba8]
    rfl
  have hbills : phaseBills env K c8 = .error (Err.ixErr 8, []) := by
    obtain ⟨k2, rfl⟩ : ∃ k2, K = k2 + 1 := ⟨K - 1, by omega⟩
    unfold phaseBills prange
    apply pseq_err_left
    unfold insertBill pwith
    dsimp only
    rw [e_ba8]
    rfl
  unfold runS seedPhasesS phasesTail
  exact ⟨_, pseq_err_right h1 (pseq_err_right h2 (pseq_err_right h3
    (pseq_err_right h4 (pseq_err_right h5 (pseq_err_right h6
      (pseq_err_right h7 (pseq_err_right h8 (pseq_err_right h9
        (pseq_err_left hbills)))))))))⟩

/-- With no injected failure, a run requesting no parties but at least one
parcel raises the ownership-phase IndexError: `random.choice` on the empty
`party_ids` while looping over the non-empty `baunit_ids`. -/
theorem runS_err_N0 {env : Env} (hf : env.failAt = none) (M K : Nat)
    (hM : 1 ≤ M) : ∃ tr, runS env 0 M K = .error (Err.ixErr 7, tr) := by
  have h1 : phasePartiesS env 0 initCore = .ok (initCore, []) := rfl
  obtain ⟨c2, t2, h2⟩ := phaseSpatialS_ok hf M initCore
  obtain ⟨hc2, _⟩ := phaseSpatialS_char h2
  have e_pid2 : c2.partyIds = [] := by simp [hc2, initCore]
  have e_sp2 : c2.spatialIds = List.range' 1 M := by simp [hc2, initCore]
  obtain ⟨c3, t3, h3⟩ := phaseBAUnitsS_ok hf c2
  obtain ⟨hc3, _⟩ := phaseBAUnitsS_char h3
  have e_pid3 : c3.partyIds = [] := by simpa [hc3] using e_pid2
  have e_ba3 : c3.baunitIds = List.range' 1 M := by
    simp [hc3, e_sp2, hc2, initCore]
  obtain ⟨c4, t4, h4⟩ := phaseTRA_ok hf c3
  obtain ⟨hc4, _⟩ := phaseTRA_char h4
  have e_pid4 : c4.partyIds = [] := by simpa [hc4] using e_pid3
  have e_ba4 : c4.baunitIds = List.range' 1 M := by simpa [hc4] using e_ba3
  have e_tra4 : c4.traIds ≠ [] := by simp [hc4]
  obtain ⟨c5, t5, h5⟩ := phaseRates_ok hf c4
  obtain ⟨hc5, _⟩ := phaseRates_char h5
  have e_pid5 : c5.partyIds = [] := by simpa [hc5] using e_pid4
  have e_ba5 : c5.baunitIds = List.range' 1 M := by simpa [hc5] using e_ba4
  have e_tra5 : c5.traIds ≠ [] := by simpa [hc5] using e_tra4
  have e_rate5 : c5.taxRateIds ≠ [] := by simp [hc5]
  obtain ⟨c6, t6, h6⟩ := phaseAssign_ok hf c5 e_tra5
  obtain ⟨hc6, _⟩ := phaseAssign_char h6
  have e_pid6 : c6.partyIds = [] := by simpa [hc6] using e_pid5
  have e_ba6 : c6.baunitIds = List.range' 1 M := by simpa [hc6] using e_ba5
  have e_rate6 : c6.taxRateIds ≠ [] := by simpa [hc6] using e_rate5
  obtain ⟨c7, t7, h7⟩ := phaseAssess_ok hf c6 e_rate6
  obtain ⟨hc7, _⟩ := phaseAssess_char h7
  have e_pid7 : c7.partyIds = [] := by simpa [hc7] using e_pid6
  have e_ba7 : c7.baunitIds = List.range' 1 M := by simpa [hc7] using e_ba6
  have e_rate7 : c7.taxRateIds ≠ [] := by simpa [hc7] using e_rate6
  obtain ⟨c8, t8, h8⟩ := phaseSupp_ok hf c7 e_rate7
  obtain ⟨S8, _, hc8, _⟩ := phaseSupp_char h8
  have e_pid8 : c8.partyIds = [] := by simpa [hc8] using e_pid7
  have e_ba8 : c8.baunitIds = List.range' 1 M := by simpa [hc8] using e_ba7
  have hrrr : phaseRRR env c8 = .error (Err.ixErr 7, []) := by
    unfold phaseRRR pwith
    dsimp only
    rw [e_ba8]
    obtain ⟨m2, rfl⟩ : ∃ m2, M = m2 + 1 := ⟨M - 1, by omega⟩
    rw [List.range'_succ]
    unfold plist
    apply pseq_err_left
    unfold insertRRR pwith
    dsimp only
    rw [e_pid8]
    rfl
  unfold runS seedPhasesS phasesTail
  exact ⟨_, pseq_err_right h1 (pseq_err_right h2 (pseq_err_right h3
    (pseq_err_right h4 (pseq_err_right h5 (pseq_err_right h6
      (pseq_err_right h7 (pseq_err_right h8
        (pseq_err_left hrrr))))))))⟩

theorem commit_not_in_rollback_events (tr : List Stmt) :
    Event.commit ∉ tr.map Event.stmt ++ [Event.rollback] := by
  intro h
  rcases List.mem_append.mp h with h1 | h2
  · obtain ⟨s, _, he⟩ := List.mem_map.mp h1
    cases he
  · have := List.mem_singleton.mp h2
    cases this

/-- Claim C9 (counterexample to the claim as stated): with no parties
requested but one parcel and one bill, the run fails, but the exception is
raised in the RRR/ownership phase (`ixErr 7`), not in the bill phase
(`ixErr 8`) as the claim asserts. -/
theorem C9_counterexample :
    successS envC 0 1 1 = false ∧
    (seedDataS envC 0 1 1).raised = some (Err.ixErr 7) ∧
    some (Err.ixErr 7) ≠ some (Err.ixErr 8) := by
  refine ⟨?_, ?_, by decide⟩
  · obtain ⟨tr, htr⟩ := @runS_err_N0 envC rfl 1 1 (by decide)
    unfold successS
    rw [htr]
  · obtain ⟨tr, htr⟩ := @runS_err_N0 envC rfl 1 1 (by decide)
    unfold seedDataS
    rw [htr]

/-- Claim C9 (amended): with no injected failure and at least one bill
requested, a run with zero parcels raises the bill-phase IndexError, while
a run with zero parties but at least one parcel already raises the
IndexError in the earlier ownership (RRR) phase; in both cases nothing is
committed and the run never succeeds. -/
theorem C9_amended (env : Env) (N M K : Nat) (hf : env.failAt = none)
    (hK : 1 ≤ K) (hMN : M = 0 ∨ (N = 0 ∧ 1 ≤ M)) :
    successS env N M K = false ∧
    (seedDataS env N M K).committed = none ∧
    Event.commit ∉ (seedDataS env N M K).events ∧
    (M = 0 → (seedDataS env N M K).raised = some (Err.ixErr 8)) ∧
    (N = 0 → 1 ≤ M → (seedDataS env N M K).raised = some (Err.ixErr 7)) := by
  rcases hMN with hM0 | ⟨hN0, hM1⟩
  · subst hM0
    obtain ⟨tr, htr⟩ := runS_err_M0 hf N K hK
    unfold successS seedDataS
    rw [htr]
    dsimp only
    exact ⟨rfl, rfl, commit_not_in_rollback_events tr, fun _ => rfl,
      fun _ hM1 => by omega⟩
  · subst hN0
    obtain ⟨tr, htr⟩ := runS_err_N0 hf M K hM1
    unfold successS seedDataS
    rw [htr]
    dsimp only
    refine ⟨rfl, rfl, commit_not_in_rollback_events tr, fun hM0 => ?_,
      fun _ _ => rfl⟩
    omega

theorem C9_witness :
    successS envC 1 0 1 = false ∧ successS envC 0 1 1 = false :=
  ⟨(C9_amended envC 1 0 1 rfl (by decide) (Or.inl rfl)).1,
   (C9_amended envC 0 1 1 rfl (by decide) (Or.inr ⟨rfl, by decide⟩)).1⟩

/-! ## C4: payment-independence of the paid flags -/

theorem billKeys_withPayData (e : Env) (ps pc : Nat → Nat)
    (pd : Nat → Nat → Int) (pa : Nat → Nat → Rat) :
    ∀ (k i u : Nat),
      billKeys (withPayData e ps pc pd pa) i u k = billKeys e i u k := by
  intro k
  induction k with
  | zero => intro i u; rfl
  | succ k ih =>
    intro i u
    have hbd : (withPayData e ps pc pd pa).billDate = e.billDate := rfl
    simp [billKeys, ih, hbd]

theorem billRowsL_withPayData (e : Env) (ps pc : Nat → Nat)
    (pd : Nat → Nat → Int) (pa : Nat → Nat → Rat) (B P : List Nat) :
    ∀ (k i u : Nat),
      billRowsL (withPayData e ps pc pd pa) B P i u k
        = billRowsL e B P i u k := by
  intro k
  induction k with
  | zero => intro i u; rfl
  | succ k ih =>
    intro i u
    have h1 : (withPayData e ps pc pd pa).billDate = e.billDate := rfl
    have h2 : (withPayData e ps pc pd pa).billAmtU = e.billAmtU := rfl
    have h3 : (withPayData e ps pc pd pa).billTypeIdx = e.billTypeIdx := rfl
    have h4 : (withPayData e ps pc pd pa).billBuidIdx = e.billBuidIdx := rfl
    have h5 : (withPayData e ps pc pd pa).billPartyIdx = e.billPartyIdx := rfl
    simp [billRowsL, ih, mkBillRow, h1, h2, h3, h4, h5]

theorem paidFold_withPayData (e : Env) (ps pc : Nat → Nat)
    (pd : Nat → Nat → Int) (pa : Nat → Nat → Rat) :
    ∀ (ks : List (Int × Nat)) (s : Nat) (rs : List BillRow),
      paidFold (withPayData e ps pc pd pa) s ks rs = paidFold e s ks rs := by
  intro ks
  induction ks with
  | nil => intro s rs; rfl
  | cons b bs ih =>
    intro s rs
    have h1 : (withPayData e ps pc pd pa).paidU = e.paidU := rfl
    simp [paidFold, ih, h1]

/-- **C4**: the final `is_paid` flag of every bill is decided by an
independent coin flip on that bill alone: each bill row is created with
`is_paid = false` and ends up flipped to `true` exactly when its own paid
draw is below one half; and replacing the whole payment phase's random
data (the sampled half, the 1-or-2 payment counts, the payment dates and
amounts) while keeping every other draw fixed leaves the final bill rows
of a successful run unchanged. -/
theorem C4_paid_flag_independent (env : Env) (ps pc : Nat → Nat)
    (pd : Nat → Nat → Int) (pa : Nat → Nat → Rat) (N M K : Nat)
    (h1 : successS env N M K = true)
    (h2 : successS (withPayData env ps pc pd pa) N M K = true) :
    (coreS (withPayData env ps pc pd pa) N M K).bills
        = (coreS env N M K).bills ∧
    (∀ i r, ((coreS env N M K).bills)[i]? = some r →
      ∃ r0, (billRowsL env (List.range' 1 M) (List.range' 1 N) 0 1 K)[i]?
          = some r0 ∧ r0.is_paid = false ∧
        r = (if env.paidU i < mkRat 1 2 then { r0 with is_paid := true }
             else r0) ∧
        r.is_paid = decide (env.paidU i < mkRat 1 2)) := by
  unfold successS at h1 h2
  cases hr1 : runS env N M K with
  | error e => rw [hr1] at h1; simp at h1
  | ok p =>
  obtain ⟨C, t⟩ := p
  cases hr2 : runS (withPayData env ps pc pd pa) N M K with
  | error e => rw [hr2] at h2; simp at h2
  | ok q =>
  obtain ⟨D, u⟩ := q
  have hC : coreS env N M K = C := by unfold coreS; rw [hr1]
  have hD : coreS (withPayData env ps pc pd pa) N M K = D := by
    unfold coreS; rw [hr2]
  obtain ⟨S, H, _, _, _, _, _, _, _, _, _, _, _, _, hbills, _, _, _, _⟩ :=
    runS_char hr1
  obtain ⟨S2, H2, _, _, _, _, _, _, _, _, _, _, _, _, hbills2, _, _, _, _⟩ :=
    runS_char hr2
  constructor
  · rw [hD, hC, hbills2, hbills, billKeys_withPayData,
      billRowsL_withPayData, paidFold_withPayData]
  · intro i r hrr
    rw [hC, hbills,
      paidFold_eq_flipAll env _ _ 0 (billRowsL_map_key env _ _ K 0 1)
        (billKeys_nodup env K 0 1),
      flipAll_getElem?] at hrr
    simp only [Nat.zero_add] at hrr
    rw [Option.map_eq_some'] at hrr
    obtain ⟨r0, hr0, hfr⟩ := hrr
    have hpaid0 :=
      (billRowsL_mem env _ _ K 0 1 r0 (List.getElem?_mem hr0)).1
    subst hfr
    refine ⟨r0, hr0, hpaid0, rfl, ?_⟩
    by_cases hc : env.paidU i < mkRat 1 2 <;> simp [hc, hpaid0]


set_option maxHeartbeats 1000000 in
theorem C4_witness :
    (coreS (withPayData envC (fun _ => 0) (fun _ => 1) (fun _ _ => 5)
        (fun _ _ => 1)) 1 1 2).bills = (coreS envC 1 1 2).bills ∧
    (∀ i r, ((coreS envC 1 1 2).bills)[i]? = some r →
      ∃ r0, (billRowsL envC (List.range' 1 1) (List.range' 1 1) 0 1 2)[i]?
          = some r0 ∧ r0.is_paid = false ∧
        r = (if envC.paidU i < mkRat 1 2 then { r0 with is_paid := true }
             else r0) ∧
        r.is_paid = decide (envC.paidU i < mkRat 1 2)) :=
  C4_paid_flag_independent envC (fun _ => 0) (fun _ => 1) (fun _ _ => 5)
    (fun _ _ => 1) 1 1 2 (by decide) (by decide)


/-! ## C6: comparing the two scripts -/

theorem riversideParty_snd (env : Env) (i : Nat) :
    (riversideParty env i).2
      = partyTypes.getD (env.partyTypeIdx i % partyTypes.length) "" := by
  unfold riversideParty
  simp only [show partyTypes.length = 3 from rfl]
  have h3 : env.partyTypeIdx i % 3 < 3 := Nat.mod_lt _ (by omega)
  have h : env.partyTypeIdx i % 3 = 0 ∨ env.partyTypeIdx i % 3 = 1 ∨
      env.partyTypeIdx i % 3 = 2 := by omega
  rcases h with h | h | h <;> rw [h] <;> rfl

theorem maskVocab_party (env : Env) (i : Nat) :
    maskVocab (partyStmtRC env i) = maskVocab (partyStmtS env i) := by
  simp [maskVocab, partyStmtRC, partyStmtS, riversideParty_snd]

theorem maskVocab_spatial (env : Env) (i : Nat) :
    maskVocab (spatialStmtRC env i) = maskVocab (spatialStmtS env i) := by
  simp [maskVocab, spatialStmtRC, spatialStmtS]

theorem dropMask_baunit (env : Env) (i sid : Nat) :
    dropCol4 (maskVocab (baunitStmtRC env i sid))
      = dropCol4 (maskVocab (baunitStmtS env i sid)) := by
  simp [dropCol4, maskVocab, baunitStmtRC, baunitStmtS]

theorem mapIdxFrom_map (g : β → γ) (f : Nat → α → β) :
    ∀ (s : Nat) (xs : List α),
      List.map g (mapIdxFrom f s xs)
        = mapIdxFrom (fun i x => g (f i x)) s xs := by
  intro s xs
  induction xs generalizing s with
  | nil => rfl
  | cons x xs ih => simp [mapIdxFrom, ih]

theorem mapIdxFrom_congr (f f2 : Nat → α → β) (h : ∀ i x, f i x = f2 i x) :
    ∀ (s : Nat) (xs : List α), mapIdxFrom f s xs = mapIdxFrom f2 s xs := by
  intro s xs
  induction xs generalizing s with
  | nil => rfl
  | cons x xs ih => simp [mapIdxFrom, ih, h]


/-- **C6** (counterexample): erasing the generated name text, address text
and interpolated geometry text is not enough to make the statement
sequences of the two scripts coincide: on a successful run with one party
and one parcel, the masked traces still differ, because the `LA_BAUnit`
INSERT of `seeder.py` carries `tra_id` as its fourth column while that of
`seeder_rc.py` carries `description`. -/
theorem C6_counterexample :
    successS envC 1 1 0 = true ∧ successRC envC 1 1 0 = true ∧
    (traceRC envC 1 1 0).map maskVocab
      ≠ (traceS envC 1 1 0).map maskVocab := by
  refine ⟨by decide, by decide, ?_⟩
  intro h
  have h2 := congrArg (List.map Stmt.columns) h
  rw [List.map_map, List.map_map] at h2
  revert h2
  decide

/-- **C6** (amended): the two scripts issue the same statement sequence
once, in addition to the name text, the address text and the interpolated
geometry text, the structurally differing fourth column of the `LA_BAUnit`
INSERT (`tra_id` in `seeder.py`, `description` with its household-size
parameter in `seeder_rc.py`) is dropped; every other statement of the two
runs is identical outright. -/
theorem C6_amended (env : Env) (N M K : Nat)
    (h1 : successS env N M K = true) (h2 : successRC env N M K = true) :
    (traceRC env N M K).map (fun s => dropCol4 (maskVocab s))
      = (traceS env N M K).map (fun s => dropCol4 (maskVocab s)) := by
  unfold successS at h1
  unfold successRC at h2
  cases hr1 : runS env N M K with
  | error e => rw [hr1] at h1; simp at h1
  | ok p =>
  obtain ⟨C, t⟩ := p
  cases hr2 : runRC env N M K with
  | error e => rw [hr2] at h2; simp at h2
  | ok q =>
  obtain ⟨D, u⟩ := q
  have hT1 : traceS env N M K = t := by unfold traceS; rw [hr1]
  have hT2 : traceRC env N M K = u := by unfold traceRC; rw [hr2]
  obtain ⟨S, H, hS, hH, _, _, _, _, _, _, _, _, _, _, _, _, _, _, htS⟩ :=
    runS_char hr1
  obtain ⟨S2, H2, hS2, hH2, _, _, _, _, _, _, _, _, _, _, _, _, _, _,
    htRC⟩ := runRC_char hr2
  have hSS : S2 = S := by
    rw [hS] at hS2
    exact (Option.some.inj hS2).symm
  have hHH : H2 = H := by
    rw [hH] at hH2
    exact (Option.some.inj hH2).symm
  subst hSS hHH
  rw [hT1, hT2, htS, htRC]
  simp only [List.map_append, List.map_map]
  have seg1 : List.map ((fun s => dropCol4 (maskVocab s)) ∘ partyStmtRC env)
        (List.range' 0 N)
      = List.map ((fun s => dropCol4 (maskVocab s)) ∘ partyStmtS env)
        (List.range' 0 N) :=
    List.map_congr_left fun i _ => congrArg dropCol4 (maskVocab_party env i)
  have seg2 : List.map
        ((fun s => dropCol4 (maskVocab s)) ∘ spatialStmtRC env)
        (List.range' 0 M)
      = List.map ((fun s => dropCol4 (maskVocab s)) ∘ spatialStmtS env)
        (List.range' 0 M) :=
    List.map_congr_left fun i _ =>
      congrArg dropCol4 (maskVocab_spatial env i)
  have seg3 : List.map (fun s => dropCol4 (maskVocab s))
        (mapIdxFrom (baunitStmtRC env) 0 (List.range' 1 M))
      = List.map (fun s => dropCol4 (maskVocab s))
        (mapIdxFrom (baunitStmtS env) 0 (List.range' 1 M)) := by
    rw [mapIdxFrom_map, mapIdxFrom_map]
    exact mapIdxFrom_congr _ _ (fun i x => dropMask_baunit env i x) 0 _
  rw [seg1, seg2, seg3]

set_option maxHeartbeats 1000000 in
theorem C6_witness :
    (traceRC envC 1 1 1).map (fun s => dropCol4 (maskVocab s))
      = (traceS envC 1 1 1).map (fun s => dropCol4 (maskVocab s)) :=
  C6_amended envC 1 1 1 (by decide) (by decide)


end TaxSeed
